import Mathlib

/-!
# Verification of the jp3_organiser catalogue / playlist storage engine

A shallow embedding of the storage engine of `jp3_organiser`
(`src-tauri/src/models/library.rs`, `src-tauri/src/commands/library.rs`,
`src-tauri/src/commands/playlist.rs`) together with proofs about its
lifecycle operations: ingest (`save_to_library`), soft delete
(`delete_songs`), tombstone-based edit (`edit_song_metadata`) and
compaction (`compact_library`).

Machine integers are modelled as `Nat` (with explicit `% 2 ^ 16`
truncation where the Rust code performs an `as u16` cast).  `HashMap`
and `HashSet` are modelled as association lists / lists; a `HashMap`
insert overwrites, which is modelled by prepending the new binding and
looking up the first match.  Fallible Rust functions returning
`Result<_, String>` are modelled with `Except String`.
-/

set_option autoImplicit false

namespace JP3

/-! ## Association lists (model of `std::collections::HashMap`)

`alInsert` prepends, `alFind` returns the binding of the *first*
matching key; since every `HashMap::insert` of the source is modelled
by a prepend, a lookup sees the most recent insert, exactly like the
overwriting `HashMap` of the source. -/

def alFind {α β : Type} [DecidableEq α] (k : α) : List (α × β) → Option β
  | [] => none
  | (a, b) :: rest => if a = k then some b else alFind k rest

def alInsert {α β : Type} (m : List (α × β)) (k : α) (v : β) : List (α × β) :=
  (k, v) :: m

@[simp] theorem alFind_nil {α β : Type} [DecidableEq α] (k : α) :
    alFind (β := β) k [] = none := rfl

@[simp] theorem alFind_cons {α β : Type} [DecidableEq α] (k a : α) (b : β)
    (rest : List (α × β)) :
    alFind k ((a, b) :: rest) = if a = k then some b else alFind k rest := rfl

/-! ## String table (`StringTable` in `models/library.rs`)

`strings` is the backing `Vec<String>`; `lookup` is the
`HashMap<String, u32>` kept alongside it. -/

structure StringTable where
  strings : List String
  lookup : List (String × Nat)
  deriving DecidableEq, Repr

namespace StringTable

def new : StringTable := ⟨[], []⟩

/-- `StringTable::from_vec`: inserts `(s, id)` for ids `0, 1, …` in order;
because a `HashMap` insert overwrites, for a duplicated string the
*largest* id wins, which the prepend-and-find-first model reproduces by
reversing the enumeration. -/
def fromVec (ss : List String) : StringTable :=
  ⟨ss, (ss.enum.map (fun p => (p.2, p.1))).reverse⟩

/-- `StringTable::add`: return the existing id when the string is
present, else append it and record the fresh id. -/
def add (t : StringTable) (s : String) : Nat × StringTable :=
  match alFind s t.lookup with
  | some id => (id, t)
  | none =>
      let id := t.strings.length
      (id, ⟨t.strings ++ [s], alInsert t.lookup s id⟩)

/-- `StringTable::get_or_peek`: lookup without mutation. -/
def get_or_peek (t : StringTable) (s : String) : Option Nat :=
  alFind s t.lookup

/-- `StringTable::get`. -/
def get (t : StringTable) (id : Nat) : Option String :=
  t.strings.get? id

def length (t : StringTable) : Nat := t.strings.length

end StringTable

/-! ## Catalogue rows (`ArtistEntry`, `AlbumEntry`, `SongEntry`) -/

structure ArtistEntry where
  name_string_id : Nat
  deriving DecidableEq, Repr

structure AlbumEntry where
  name_string_id : Nat
  artist_id : Nat
  year : Nat
  deriving DecidableEq, Repr

/-- `song_flags::ACTIVE`. -/
def FLAG_ACTIVE : Nat := 0

/-- `song_flags::DELETED`. -/
def FLAG_DELETED : Nat := 1

structure SongEntry where
  title_string_id : Nat
  artist_id : Nat
  album_id : Nat
  path_string_id : Nat
  track_number : Nat
  duration_sec : Nat
  flags : Nat
  deriving DecidableEq, Repr, Inhabited

namespace SongEntry

/-- `SongEntry::new`: a fresh entry is `ACTIVE`. -/
def mk_new (title_string_id artist_id album_id path_string_id
    track_number duration_sec : Nat) : SongEntry :=
  ⟨title_string_id, artist_id, album_id, path_string_id,
    track_number, duration_sec, FLAG_ACTIVE⟩

/-- `SongEntry::is_deleted`: `flags & DELETED != 0`. -/
def is_deleted (s : SongEntry) : Bool := s.flags &&& FLAG_DELETED != 0

def is_active (s : SongEntry) : Bool := !s.is_deleted

end SongEntry

/-- The logical content of a `library.bin` file generation: string pool
plus the three fixed-size tables, in file order. -/
structure Catalogue where
  strings : List String
  artists : List ArtistEntry
  albums : List AlbumEntry
  songs : List SongEntry
  deriving DecidableEq, Repr

/-- Referential well-formedness of one file generation (§3 of the spec:
"relationships … must always resolve to an in-bounds row"). -/
def Catalogue.WF (c : Catalogue) : Prop :=
  (∀ s ∈ c.songs,
      s.title_string_id < c.strings.length ∧
      s.path_string_id < c.strings.length ∧
      s.artist_id < c.artists.length ∧
      s.album_id < c.albums.length) ∧
  (∀ a ∈ c.artists, a.name_string_id < c.strings.length) ∧
  (∀ al ∈ c.albums,
      al.name_string_id < c.strings.length ∧ al.artist_id < c.artists.length)

instance (c : Catalogue) : Decidable c.WF := by
  unfold Catalogue.WF
  infer_instance

/-! ## C9 — idempotent interning -/

/-- Claim C9: for every string `s` and every string-pool state, calling
`StringTable::add` with `s` twice returns the same id both times, the
pool grows by at most one across the two calls (indeed the second call
leaves the table untouched), and a string that the lookup already knows
is returned with its existing id without any mutation. -/
theorem intern_idempotent (t : StringTable) (s : String) :
    ((t.add s).2.add s).1 = (t.add s).1 ∧
    ((t.add s).2.add s).2 = (t.add s).2 ∧
    (t.add s).2.strings.length ≤ t.strings.length + 1 ∧
    (∀ i, t.get_or_peek s = some i → t.add s = (i, t)) := by
  unfold StringTable.add StringTable.get_or_peek
  cases h : alFind s t.lookup with
  | some id =>
      simp [h]
  | none =>
      simp [h, alInsert, alFind]

/-- Witness for C9: interning `"a"` into the pool `["a", "b"]` returns
the existing id `0` and leaves the table unchanged. -/
theorem intern_idempotent_witness :
    (StringTable.fromVec ["a", "b"]).add "a" = (0, StringTable.fromVec ["a", "b"]) :=
  (intern_idempotent (StringTable.fromVec ["a", "b"]) "a").2.2.2 0 (by decide)

/-! ## Byte-level model of `library.bin` and `delete_songs`

`delete_songs` works directly on the bytes of `library.bin`: it parses
the header, then, for each in-range id, seeks to the flag byte of that
song's row (`song_table_offset + id * SongEntry::SIZE + 20`) and writes
the single byte `DELETED`.  The file is modelled as a `List Nat` of
byte values. -/

/-- Little-endian `u32` read (`u32::from_le_bytes`). -/
def le32 (data : List Nat) (off : Nat) : Nat :=
  data.getD off 0 + 256 * data.getD (off + 1) 0 +
    65536 * data.getD (off + 2) 0 + 16777216 * data.getD (off + 3) 0

/-- `SongEntry::SIZE` (24 bytes); the flag byte sits at offset 20 of a row. -/
def SONG_ENTRY_SIZE : Nat := 24

/-- Parsed `LibraryHeader` fields used by `delete_songs`. -/
structure Header where
  version : Nat
  song_count : Nat
  artist_count : Nat
  album_count : Nat
  string_table_offset : Nat
  artist_table_offset : Nat
  album_table_offset : Nat
  song_table_offset : Nat
  deriving DecidableEq, Repr

/-- `LibraryHeader::from_bytes`: fails when the buffer is shorter than
40 bytes or the magic tag is not `"LIB1"` (bytes `76 73 66 49`). -/
def parseHeader (data : List Nat) : Option Header :=
  if data.length < 40 then none
  else if data.getD 0 0 = 76 ∧ data.getD 1 0 = 73 ∧
      data.getD 2 0 = 66 ∧ data.getD 3 0 = 49 then
    some ⟨le32 data 4, le32 data 8, le32 data 12, le32 data 16,
      le32 data 20, le32 data 24, le32 data 28, le32 data 32⟩
  else none

/-- Result of `delete_songs` (`DeleteSongsResult`; the `files_deleted`
count of removed audio blobs concerns the music tree, not the catalogue
file, and is not tracked in the byte model). -/
structure DeleteSongsResult where
  songs_deleted : Nat
  not_found : List Nat
  deriving DecidableEq, Repr

/-- The flag byte written by a soft delete of song `id`. -/
def flagOffset (h : Header) (id : Nat) : Nat :=
  h.song_table_offset + id * SONG_ENTRY_SIZE + 20

/-- The `for &song_id in &song_ids` loop of `delete_songs`: ids at or
past `song_count` are recorded as not-found and skipped; for an
in-range id the single flag byte of its row is overwritten with
`DELETED`. -/
def deleteLoop (h : Header) :
    List Nat → List Nat → Nat → List Nat → List Nat × Nat × List Nat
  | [], data, cnt, nf => (data, cnt, nf)
  | id :: rest, data, cnt, nf =>
      if h.song_count ≤ id then
        deleteLoop h rest data cnt (nf ++ [id])
      else
        deleteLoop h rest (data.set (flagOffset h id) FLAG_DELETED) (cnt + 1) nf

/-- `delete_songs` on the catalogue bytes: parse the header (an invalid
header is the only failure), run the loop.  The playlists directory is
never read or written by this command (the source explicitly defers
playlist cleanup to `compact_library`), so the playlist files are passed
through untouched. -/
def delete_songs (data : List Nat) (playlists : List (String × List Nat))
    (song_ids : List Nat) :
    Option (List Nat × List (String × List Nat) × DeleteSongsResult) :=
  match parseHeader data with
  | none => none
  | some h =>
      let fin := deleteLoop h song_ids data 0 []
      some (fin.1, playlists, ⟨fin.2.1, fin.2.2⟩)

/-! ### Loop invariants for `deleteLoop` -/

theorem getD_set_self (l : List Nat) (i v : Nat) (h : i < l.length) :
    (l.set i v).getD i 0 = v := by
  simp [List.getD, List.get?_eq_getElem?, List.getElem?_set_self, h]

theorem getD_set_ne (l : List Nat) (i j v : Nat) (h : i ≠ j) :
    (l.set i v).getD j 0 = l.getD j 0 := by
  simp [List.getD, List.get?_eq_getElem?, List.getElem?_set_ne, h]

theorem set_oob (l : List Nat) (i v : Nat) (h : ¬ i < l.length) : l.set i v = l := by
  induction l generalizing i with
  | nil => rfl
  | cons a t ih =>
      cases i with
      | zero => simp at h
      | succ n =>
          have hn : ¬ n < t.length := by simp at h; omega
          simp [List.set, ih n hn]

theorem deleteLoop_length (h : Header) (ids : List Nat) :
    ∀ data cnt nf, (deleteLoop h ids data cnt nf).1.length = data.length := by
  induction ids with
  | nil => intro data cnt nf; rfl
  | cons id rest ih =>
      intro data cnt nf
      by_cases hc : h.song_count ≤ id
      · simp [deleteLoop, hc, ih]
      · simp [deleteLoop, hc, ih]

theorem deleteLoop_not_found (h : Header) (ids : List Nat) :
    ∀ data cnt nf, (deleteLoop h ids data cnt nf).2.2 =
      nf ++ ids.filter (fun i => decide (h.song_count ≤ i)) := by
  induction ids with
  | nil => intro data cnt nf; simp [deleteLoop]
  | cons id rest ih =>
      intro data cnt nf
      by_cases hc : h.song_count ≤ id
      · simp [deleteLoop, hc, ih]
      · simp [deleteLoop, hc, ih]

theorem deleteLoop_deleted_count (h : Header) (ids : List Nat) :
    ∀ data cnt nf, (deleteLoop h ids data cnt nf).2.1 =
      cnt + (ids.filter (fun i => decide (i < h.song_count))).length := by
  induction ids with
  | nil => intro data cnt nf; simp [deleteLoop]
  | cons id rest ih =>
      intro data cnt nf
      by_cases hc : h.song_count ≤ id
      · have : ¬ id < h.song_count := by omega
        simp [deleteLoop, hc, ih, this]
      · have : id < h.song_count := by omega
        simp [deleteLoop, hc, ih, this]
        omega

/-- Every byte the loop writes is the value `DELETED`, so a flag byte
already holding `DELETED` keeps that value to the end of the loop. -/
theorem deleteLoop_preserves_deleted (h : Header) (ids : List Nat) :
    ∀ data cnt nf off, data.getD off 0 = FLAG_DELETED →
      (deleteLoop h ids data cnt nf).1.getD off 0 = FLAG_DELETED := by
  induction ids with
  | nil => intro data cnt nf off hoff; simpa [deleteLoop] using hoff
  | cons id rest ih =>
      intro data cnt nf off hoff
      by_cases hc : h.song_count ≤ id
      · simpa [deleteLoop, hc] using ih data cnt (nf ++ [id]) off hoff
      · simp only [deleteLoop, hc, if_false]
        apply ih
        by_cases he : flagOffset h id = off
        · subst he
          by_cases hlt : flagOffset h id < data.length
          · exact getD_set_self data _ _ hlt
          · rw [set_oob data _ _ hlt]; exact hoff
        · rw [getD_set_ne data _ _ _ he]; exact hoff

/-- Bytes other than the written flag bytes are untouched. -/
theorem deleteLoop_frame (h : Header) (ids : List Nat) :
    ∀ data cnt nf off, (∀ id ∈ ids, id < h.song_count → flagOffset h id ≠ off) →
      (deleteLoop h ids data cnt nf).1.getD off 0 = data.getD off 0 := by
  induction ids with
  | nil => intro data cnt nf off _; rfl
  | cons id rest ih =>
      intro data cnt nf off hoff
      by_cases hc : h.song_count ≤ id
      · simp only [deleteLoop, hc, if_true]
        exact ih data cnt (nf ++ [id]) off
          (fun i hi hlt => hoff i (List.mem_cons_of_mem _ hi) hlt)
      · simp only [deleteLoop, hc, if_false]
        rw [ih _ _ _ _ (fun i hi hlt => hoff i (List.mem_cons_of_mem _ hi) hlt)]
        exact getD_set_ne data _ _ _ (hoff id (List.mem_cons_self _ _) (by omega))

/-- An in-range id that appears in the list ends the loop with its flag
byte equal to `DELETED`, provided its row lies inside the file. -/
theorem deleteLoop_sets_flag (h : Header) (ids : List Nat) :
    ∀ data cnt nf id, id ∈ ids → id < h.song_count →
      flagOffset h id < data.length →
      (deleteLoop h ids data cnt nf).1.getD (flagOffset h id) 0 = FLAG_DELETED := by
  induction ids with
  | nil => intro _ _ _ _ hmem; cases hmem
  | cons i rest ih =>
      intro data cnt nf id hmem hlt hin
      rcases List.mem_cons.mp hmem with heq | hmem'
      · subst heq
        have hc : ¬ h.song_count ≤ id := by omega
        simp only [deleteLoop, hc, if_false]
        exact deleteLoop_preserves_deleted h rest _ _ _ _
          (getD_set_self data _ _ hin)
      · by_cases hc : h.song_count ≤ i
        · simp only [deleteLoop, hc, if_true]
          exact ih data cnt (nf ++ [i]) id hmem' hlt hin
        · simp only [deleteLoop, hc, if_false]
          exact ih _ _ nf id hmem' hlt (by simpa using hin)

/-- The row of an in-range song id lies inside the file whenever the
whole song table does. -/
theorem flagOffset_lt (h : Header) (data : List Nat) (id : Nat)
    (hwf : h.song_table_offset + h.song_count * SONG_ENTRY_SIZE ≤ data.length)
    (hid : id < h.song_count) : flagOffset h id < data.length := by
  have h1 : (id + 1) * SONG_ENTRY_SIZE ≤ h.song_count * SONG_ENTRY_SIZE :=
    Nat.mul_le_mul_right _ hid
  unfold flagOffset SONG_ENTRY_SIZE at *
  omega

/-- Claim C7: soft-deleting one in-range song changes exactly one byte
of `library.bin` — the flag byte of that song's row, which becomes
`DELETED` — and leaves every other byte (header, string pool, every
other row) and every playlist file untouched. -/
theorem delete_songs_single_byte_frame (data : List Nat)
    (playlists : List (String × List Nat)) (song_id : Nat) (h : Header)
    (hp : parseHeader data = some h)
    (hwf : h.song_table_offset + h.song_count * SONG_ENTRY_SIZE ≤ data.length)
    (hid : song_id < h.song_count) :
    ∃ d' res, delete_songs data playlists [song_id] = some (d', playlists, res) ∧
      d'.length = data.length ∧
      d'.getD (flagOffset h song_id) 0 = FLAG_DELETED ∧
      ∀ i, i ≠ flagOffset h song_id → d'.getD i 0 = data.getD i 0 := by
  have hin : flagOffset h song_id < data.length := flagOffset_lt h data song_id hwf hid
  have hc : ¬ h.song_count ≤ song_id := by omega
  refine ⟨data.set (flagOffset h song_id) FLAG_DELETED, ⟨1, []⟩, ?_, ?_, ?_, ?_⟩
  · simp [delete_songs, hp, deleteLoop, hc]
  · exact List.length_set data _ _
  · exact getD_set_self data _ _ hin
  · intro i hi
    exact getD_set_ne data _ _ _ (fun he => hi he.symm)

/-- Witness for C7 on a concrete 64-byte `library.bin` holding one
song row: the flag byte at offset 60 becomes `DELETED`, the length is
unchanged, the byte before the flag is untouched, and the playlist
files come back as given. -/
theorem delete_songs_single_byte_frame_witness :
    (delete_songs
        ([76, 73, 66, 49, 1, 0, 0, 0, 1, 0, 0, 0, 0, 0, 0, 0, 0, 0, 0, 0,
          40, 0, 0, 0, 40, 0, 0, 0, 40, 0, 0, 0, 40, 0, 0, 0, 0, 0, 0, 0] ++
          List.replicate 24 0)
        [("p", [0])] [0]).map
      (fun r => (r.1.getD 60 0, r.1.getD 59 0, r.1.length, r.2.1)) =
      some (FLAG_DELETED, 0, 64, [("p", [0])]) := by
  obtain ⟨d', res, heq, hlen, hflag, hframe⟩ :=
    delete_songs_single_byte_frame
      ([76, 73, 66, 49, 1, 0, 0, 0, 1, 0, 0, 0, 0, 0, 0, 0, 0, 0, 0, 0,
        40, 0, 0, 0, 40, 0, 0, 0, 40, 0, 0, 0, 40, 0, 0, 0, 0, 0, 0, 0] ++
        List.replicate 24 0)
      [("p", [0])] 0 ⟨1, 1, 0, 0, 40, 40, 40, 40⟩
      (by decide) (by decide) (by decide)
  rw [heq]
  simp only [Option.map_some', Option.some.injEq, Prod.mk.injEq]
  norm_num [flagOffset, SONG_ENTRY_SIZE] at hflag
  have hflag' : d'.getD 60 0 = FLAG_DELETED := by
    simpa [List.getD] using hflag
  refine ⟨hflag', ?_, ?_, trivial⟩
  · rw [hframe 59 (by decide)]; rfl
  · rw [hlen]; rfl

/-- Claim C8: `delete_songs` records every out-of-range id in
`not_found` and keeps going; out-of-range ids never fail the whole
call (the result is `some …`), and the in-range ids of the same call
are all soft-deleted. -/
theorem delete_songs_out_of_range_not_found (data : List Nat)
    (playlists : List (String × List Nat)) (song_ids : List Nat) (h : Header)
    (hp : parseHeader data = some h)
    (hwf : h.song_table_offset + h.song_count * SONG_ENTRY_SIZE ≤ data.length) :
    ∃ d' res, delete_songs data playlists song_ids = some (d', playlists, res) ∧
      res.not_found = song_ids.filter (fun i => decide (h.song_count ≤ i)) ∧
      res.songs_deleted = (song_ids.filter (fun i => decide (i < h.song_count))).length ∧
      ∀ id ∈ song_ids, id < h.song_count →
        d'.getD (flagOffset h id) 0 = FLAG_DELETED := by
  refine ⟨(deleteLoop h song_ids data 0 []).1,
    ⟨(deleteLoop h song_ids data 0 []).2.1, (deleteLoop h song_ids data 0 []).2.2⟩,
    ?_, ?_, ?_, ?_⟩
  · simp [delete_songs, hp]
  · simpa using deleteLoop_not_found h song_ids data 0 []
  · simpa using deleteLoop_deleted_count h song_ids data 0 []
  · intro id hmem hlt
    exact deleteLoop_sets_flag h song_ids data 0 [] id hmem hlt
      (flagOffset_lt h data id hwf hlt)

/-- Witness for C8 on the same concrete one-song catalogue with the id
list `[0, 5]`: the call succeeds, id 5 is reported not-found, id 0 is
still soft-deleted. -/
theorem delete_songs_out_of_range_not_found_witness :
    (delete_songs
        ([76, 73, 66, 49, 1, 0, 0, 0, 1, 0, 0, 0, 0, 0, 0, 0, 0, 0, 0, 0,
          40, 0, 0, 0, 40, 0, 0, 0, 40, 0, 0, 0, 40, 0, 0, 0, 0, 0, 0, 0] ++
          List.replicate 24 0)
        [] [0, 5]).map
      (fun r => (r.2.2.not_found, r.2.2.songs_deleted, r.1.getD 60 0)) =
      some ([5], 1, FLAG_DELETED) := by
  obtain ⟨d', res, heq, hnf, hcnt, hflags⟩ :=
    delete_songs_out_of_range_not_found
      ([76, 73, 66, 49, 1, 0, 0, 0, 1, 0, 0, 0, 0, 0, 0, 0, 0, 0, 0, 0,
        40, 0, 0, 0, 40, 0, 0, 0, 40, 0, 0, 0, 40, 0, 0, 0, 0, 0, 0, 0] ++
        List.replicate 24 0)
      [] [0, 5] ⟨1, 1, 0, 0, 40, 40, 40, 40⟩ (by decide) (by decide)
  rw [heq]
  simp only [Option.map_some', Option.some.injEq, Prod.mk.injEq]
  have hflag0 := hflags 0 (by decide) (by decide)
  norm_num [flagOffset, SONG_ENTRY_SIZE] at hflag0
  have hflag0' : d'.getD 60 0 = FLAG_DELETED := by
    simpa [List.getD] using hflag0
  refine ⟨?_, ?_, hflag0'⟩
  · rw [hnf]; rfl
  · rw [hcnt]; rfl

/-! ## Logical model of the catalogue lifecycle

`save_to_library`, `edit_song_metadata` and `compact_library` all read
the whole `library.bin`, work on the parsed tables in memory and write
the file back in one pass.  They are modelled here directly on the
parsed content (`Catalogue`); a playlist file is modelled as its parsed
content `(name, song_ids)`. -/

/-- `AudioMetadata` (the fields consumed by the catalogue store; the
MusicBrainz ids are passed through unread). -/
structure AudioMetadata where
  title : Option String
  artist : Option String
  album : Option String
  year : Option Nat
  track_number : Option Nat
  duration_secs : Option Nat
  deriving DecidableEq, Repr

/-- `FileToSave`.  `source_exists` stands for
`Path::new(&f.source_path).exists()` at call time and `extension` for
the lowercased extension of the source path (`"mp3"` when absent). -/
structure FileToSave where
  source_exists : Bool
  extension : String
  metadata : AudioMetadata
  deriving DecidableEq, Repr

/-- `MAX_FILES_PER_BUCKET`. -/
def MAX_FILES_PER_BUCKET : Nat := 256

/-- The music tree: each bucket directory (by its parsed number) with
the files physically present in it. -/
abbrev MusicDir := List (Nat × List String)

def bucketFiles (m : MusicDir) (b : Nat) : List String :=
  (alFind b m).getD []

/-- `fs::create_dir_all` on a bucket: a no-op when it already exists. -/
def createBucket (m : MusicDir) (b : Nat) : MusicDir :=
  match m with
  | [] => [(b, [])]
  | (b', fs) :: rest =>
      if b' = b then (b', fs) :: rest else (b', fs) :: createBucket rest b

/-- `fs::copy` into a bucket: overwrites silently when the destination
filename already exists (the directory gains no new entry). -/
def addFileToBucket (m : MusicDir) (b : Nat) (f : String) : MusicDir :=
  match m with
  | [] => [(b, [f])]
  | (b', fs) :: rest =>
      if b' = b then (b', if f ∈ fs then fs else fs ++ [f]) :: rest
      else (b', fs) :: addFileToBucket rest b f

/-- `fs::remove_file` of one blob, tolerating "already gone". -/
def removeFileFromBucket (m : MusicDir) (b : Nat) (f : String) : MusicDir :=
  m.map (fun p => if p.1 = b then (p.1, p.2.filter (fun g => g ≠ f)) else p)

/-- `get_current_bucket`: the highest-numbered bucket directory and the
count of files physically present in it. -/
def get_current_bucket (m : MusicDir) : Nat × Nat :=
  let max_bucket := m.foldl (fun acc p => max acc p.1) 0
  (max_bucket, (bucketFiles m max_bucket).length)

/-- Zero padding of `format!("{:02}", n)` / `format!("{:03}", n)`. -/
def padZero (s : String) (w : Nat) : String :=
  String.mk (List.replicate (w - s.length) '0') ++ s

def fmt2 (n : Nat) : String := padZero (toString n) 2

def fmt3 (n : Nat) : String := padZero (toString n) 3

/-- All blob paths (`bucket/filename`) present on disk. -/
def diskPaths (m : MusicDir) : List String :=
  m.flatMap (fun p => p.2.map (fun f => fmt2 p.1 ++ "/" ++ f))

/-- The destination path `save_to_library` computes for the next placed
file: highest-numbered bucket (rolling over at capacity), filename
derived from the count of files physically present, zero-padded, plus
the source extension. -/
def computeDestRelPath (music : MusicDir) (ext : String) : String :=
  let cb := get_current_bucket music
  let b := if MAX_FILES_PER_BUCKET ≤ cb.2 then cb.1 + 1 else cb.1
  let k := if MAX_FILES_PER_BUCKET ≤ cb.2 then 0 else cb.2
  fmt2 b ++ "/" ++ fmt3 (k + 1) ++ "." ++ ext

/-- The album-map key `format!("{}:{}", artist_id, album_name)`. -/
def albumKey (artist_id : Nat) (name : String) : String :=
  toString artist_id ++ ":" ++ name

/-- The `artist_map` rebuilt on load: name (resolved with
`unwrap_or_default`) ↦ artist id, later ids overwriting earlier ones. -/
def buildArtistMap (strings : List String) (artists : List ArtistEntry) :
    List (String × Nat) :=
  artists.enum.foldl
    (fun m p => alInsert m (strings.getD p.2.name_string_id "") p.1) []

/-- The `album_map` rebuilt on load: `albumKey` ↦ album id. -/
def buildAlbumMap (strings : List String) (albums : List AlbumEntry) :
    List (String × Nat) :=
  albums.enum.foldl
    (fun m p =>
      alInsert m (albumKey p.2.artist_id (strings.getD p.2.name_string_id "")) p.1)
    []

/-- The duplicate-detection structures rebuilt on load: the set of
`(title_string_id, artist_id, album_id)` keys of the *active* songs and
the map from such a key to its song id. -/
def buildSongSets (songs : List SongEntry) :
    List (Nat × Nat × Nat) × List ((Nat × Nat × Nat) × Nat) :=
  songs.enum.foldl
    (fun acc p =>
      if p.2.flags &&& FLAG_DELETED = 0 then
        (acc.1 ++ [(p.2.title_string_id, p.2.artist_id, p.2.album_id)],
          alInsert acc.2 (p.2.title_string_id, p.2.artist_id, p.2.album_id) p.1)
      else acc)
    ([], [])

/-- The resolve-or-create artist block shared verbatim by
`save_to_library` and `edit_song_metadata`. -/
def getOrCreateArtist (st : StringTable) (artists : List ArtistEntry)
    (artist_map : List (String × Nat)) (name : String) :
    Nat × StringTable × List ArtistEntry × List (String × Nat) :=
  match alFind name artist_map with
  | some id => (id, st, artists, artist_map)
  | none =>
      let id := artists.length
      let r := st.add name
      (id, r.2, artists ++ [⟨r.1⟩], alInsert artist_map name id)

/-- The resolve-or-create album block (scoped to the artist) shared by
`save_to_library` and `edit_song_metadata`; `year` is already the
`unwrap_or(0) as u16` value. -/
def getOrCreateAlbum (st : StringTable) (albums : List AlbumEntry)
    (album_map : List (String × Nat)) (artist_id : Nat) (name : String)
    (year : Nat) : Nat × StringTable × List AlbumEntry × List (String × Nat) :=
  match alFind (albumKey artist_id name) album_map with
  | some id => (id, st, albums, album_map)
  | none =>
      let id := albums.length
      let r := st.add name
      (id, r.2, albums ++ [⟨r.1, artist_id, year⟩],
        alInsert album_map (albumKey artist_id name) id)

/-- `SaveToLibraryResult`. -/
structure SaveToLibraryResult where
  files_saved : Nat
  artists_added : Nat
  albums_added : Nat
  songs_added : Nat
  duplicates_skipped : Nat
  song_ids : List Nat
  duplicate_song_ids : List Nat
  deriving DecidableEq, Repr

/-- The mutable state of the `for file_to_save in files` loop of
`save_to_library`.  `copies` instruments the number of `fs::copy`
calls performed (each one copies exactly one blob). -/
structure SaveLoop where
  string_table : StringTable
  artists : List ArtistEntry
  albums : List AlbumEntry
  songs : List SongEntry
  artist_map : List (String × Nat)
  album_map : List (String × Nat)
  song_set : List (Nat × Nat × Nat)
  song_id_map : List ((Nat × Nat × Nat) × Nat)
  current_bucket : Nat
  files_in_bucket : Nat
  music : MusicDir
  files_saved : Nat
  duplicates_skipped : Nat
  saved_song_ids : List Nat
  duplicate_song_ids : List Nat
  copies : Nat
  deriving DecidableEq, Repr

/-- The non-duplicate tail of the loop body: bucket rollover, blob
placement (`fs::copy`), string interning and song append. -/
def placeAndAppend (l : SaveLoop) (f : FileToSave) (title : String)
    (st : StringTable) (artists : List ArtistEntry) (albums : List AlbumEntry)
    (artist_map album_map : List (String × Nat)) (artist_id album_id : Nat) :
    SaveLoop :=
  let roll := MAX_FILES_PER_BUCKET ≤ l.files_in_bucket
  let cb := if roll then l.current_bucket + 1 else l.current_bucket
  let fib := if roll then 0 else l.files_in_bucket
  let music1 := if roll then createBucket l.music cb else l.music
  let new_filename := fmt3 (fib + 1) ++ "." ++ f.extension
  let relative_path := fmt2 cb ++ "/" ++ new_filename
  let music2 := addFileToBucket music1 cb new_filename
  let r1 := st.add title
  let r2 := r1.2.add relative_path
  let new_song_id := l.songs.length
  { string_table := r2.2, artists := artists, albums := albums,
    songs := l.songs ++ [SongEntry.mk_new r1.1 artist_id album_id r2.1
      (f.metadata.track_number.getD 0 % 65536)
      (f.metadata.duration_secs.getD 0 % 65536)],
    artist_map := artist_map, album_map := album_map,
    song_set := l.song_set ++ [(r1.1, artist_id, album_id)],
    song_id_map := l.song_id_map,
    current_bucket := cb, files_in_bucket := fib + 1, music := music2,
    files_saved := l.files_saved + 1,
    duplicates_skipped := l.duplicates_skipped,
    saved_song_ids := l.saved_song_ids ++ [new_song_id],
    duplicate_song_ids := l.duplicate_song_ids,
    copies := l.copies + 1 }

/-- One iteration of the `save_to_library` loop: skip a missing source
file; fail the whole call on a missing required metadata field (the
`ok_or(…)?` propagates the error out of `save_to_library`); otherwise
resolve-or-create artist and album, run the duplicate check against
`song_set`, and either record the duplicate or place-and-append. -/
def saveStep (l : SaveLoop) (f : FileToSave) : Except String SaveLoop :=
  if !f.source_exists then .ok l
  else
    match f.metadata.title with
    | none => .error "Missing title"
    | some title =>
        match f.metadata.artist with
        | none => .error "Missing artist"
        | some artist_name =>
            match f.metadata.album with
            | none => .error "Missing album"
            | some album_name =>
                let ra := getOrCreateArtist l.string_table l.artists
                  l.artist_map artist_name
                let artist_id := ra.1
                let rb := getOrCreateAlbum ra.2.1 l.albums l.album_map artist_id
                  album_name (f.metadata.year.getD 0 % 65536)
                let album_id := rb.1
                let st := rb.2.1
                let dup := match st.get_or_peek title with
                  | some tid => decide ((tid, artist_id, album_id) ∈ l.song_set)
                  | none => false
                if dup then
                  .ok { l with
                    string_table := st, artists := ra.2.2.1, albums := rb.2.2.1,
                    artist_map := ra.2.2.2, album_map := rb.2.2.2,
                    duplicates_skipped := l.duplicates_skipped + 1,
                    duplicate_song_ids := l.duplicate_song_ids ++
                      (match st.get_or_peek title with
                        | some tid =>
                            match alFind (tid, artist_id, album_id) l.song_id_map with
                            | some sid => [sid]
                            | none => []
                        | none => []) }
                else
                  .ok (placeAndAppend l f title st ra.2.2.1 rb.2.2.1
                    ra.2.2.2 rb.2.2.2 artist_id album_id)

/-- The loop state at entry: the tables and lookup structures of
`load_existing_library_data` (a catalogue with `song_count == 0` is
treated as "no catalogue": everything starts fresh, which is the same
as loading the empty catalogue), plus `get_current_bucket`. -/
def initLoop (c : Catalogue) (music : MusicDir) : SaveLoop :=
  let sets := buildSongSets c.songs
  let cb := get_current_bucket music
  ⟨StringTable.fromVec c.strings, c.artists, c.albums, c.songs,
    buildArtistMap c.strings c.artists, buildAlbumMap c.strings c.albums,
    sets.1, sets.2, cb.1, cb.2, music, 0, 0, [], [], 0⟩

/-- The catalogue `save_to_library` actually starts from: a catalogue
with no songs is discarded (`load_existing_library_data` returns
`None`) and everything starts fresh. -/
def effectiveCatalogue (c : Catalogue) : Catalogue :=
  if c.songs.length = 0 then ⟨[], [], [], []⟩ else c

/-- `save_to_library` on the parsed catalogue, the music tree and the
ingest batch.  Returns the rewritten catalogue, the music tree, the
number of `fs::copy` calls performed, and the per-batch result. -/
def save_to_library (c : Catalogue) (music : MusicDir) (files : List FileToSave) :
    Except String (Catalogue × MusicDir × Nat × SaveToLibraryResult) :=
  let c0 := effectiveCatalogue c
  match files.foldlM saveStep (initLoop c0 music) with
  | .error e => .error e
  | .ok l =>
      .ok (⟨l.string_table.strings, l.artists, l.albums, l.songs⟩, l.music, l.copies,
        ⟨l.files_saved, l.artists.length - c0.artists.length,
          l.albums.length - c0.albums.length,
          l.songs.length - c0.songs.length,
          l.duplicates_skipped, l.saved_song_ids, l.duplicate_song_ids⟩)

/-! ## `edit_song_metadata` and playlist remapping -/

/-- `EditSongResult`. -/
structure EditSongResult where
  new_song_id : Nat
  artist_created : Bool
  album_created : Bool
  playlists_updated : Nat
  deriving DecidableEq, Repr

/-- The effect on the song table of `delete_songs(vec![song_id])`
during an edit: the flag byte of the row is overwritten with
`DELETED`, nothing else changes. -/
def markDeleted (songs : List SongEntry) (i : Nat) : List SongEntry :=
  match songs.get? i with
  | some s => songs.set i { s with flags := FLAG_DELETED }
  | none => songs

/-- `remap_song_id_in_playlists`: every playlist that contains `old_id`
is rewritten with each occurrence replaced by `new_id` (order and
duplicates preserved); playlists without the id are not rewritten.
Returns the playlists and the number rewritten. -/
def remap_song_id_in_playlists (playlists : List (String × List Nat))
    (old_id new_id : Nat) : List (String × List Nat) × Nat :=
  playlists.foldl
    (fun acc p =>
      if old_id ∈ p.2 then
        (acc.1 ++ [(p.1, p.2.map (fun i => if i = old_id then new_id else i))],
          acc.2 + 1)
      else (acc.1 ++ [p], acc.2))
    ([], 0)

/-- `edit_song_metadata`: soft-delete the old row (an out-of-range id
makes `delete_songs` delete nothing, which is reported as an error),
re-read the catalogue to fetch the old row's blob path, resolve-or-
create artist and album for the new metadata (with **no** duplicate
check), append a new `ACTIVE` row reusing the old path string, rewrite
the catalogue, and remap the old id to the new id in every playlist. -/
def edit_song_metadata (c : Catalogue) (playlists : List (String × List Nat))
    (song_id : Nat) (new_metadata : AudioMetadata) :
    Except String (Catalogue × List (String × List Nat) × EditSongResult) :=
  if c.songs.length ≤ song_id then
    .error ("Song " ++ toString song_id ++ " not found")
  else
    let songs0 := markDeleted c.songs song_id
    let old_path_string_id := (songs0.getD song_id default).path_string_id
    match c.strings.get? old_path_string_id with
    | none => .error "Failed to get old song path"
    | some old_path =>
        match new_metadata.artist with
        | none => .error "Missing artist"
        | some artist_name =>
            match new_metadata.album with
            | none => .error "Missing album"
            | some album_name =>
                match new_metadata.title with
                | none => .error "Missing title"
                | some title =>
                    let st0 := StringTable.fromVec c.strings
                    let artist_map := buildArtistMap c.strings c.artists
                    let album_map := buildAlbumMap c.strings c.albums
                    let ra := getOrCreateArtist st0 c.artists artist_map artist_name
                    let artist_id := ra.1
                    let rb := getOrCreateAlbum ra.2.1 c.albums album_map artist_id
                      album_name (new_metadata.year.getD 0 % 65536)
                    let album_id := rb.1
                    let r1 := rb.2.1.add title
                    let r2 := r1.2.add old_path
                    let new_song_id := songs0.length
                    let songs1 := songs0 ++ [SongEntry.mk_new r1.1 artist_id album_id
                      r2.1 (new_metadata.track_number.getD 0 % 65536)
                      (new_metadata.duration_secs.getD 0 % 65536)]
                    let rp := remap_song_id_in_playlists playlists song_id new_song_id
                    .ok (⟨r2.2.strings, ra.2.2.1, rb.2.2.1, songs1⟩, rp.1,
                      ⟨new_song_id, c.artists.length < ra.2.2.1.length,
                        c.albums.length < rb.2.2.1.length, rp.2⟩)

/-! ## `compact_library` -/

/-- `CompactResult` (the size-in-bytes fields concern the on-disk
files and are not tracked in the logical model). -/
structure CompactResult where
  songs_removed : Nat
  artists_removed : Nat
  albums_removed : Nat
  strings_removed : Nat
  playlists_updated : Nat
  deriving DecidableEq, Repr

/-- The artist ids still referenced by an active song
(`used_artist_ids`). -/
def usedArtistIds (songs : List SongEntry) : List Nat :=
  (songs.filter (fun s => decide (s.flags &&& FLAG_DELETED = 0))).map
    (fun s => s.artist_id)

/-- The album ids still referenced by an active song
(`used_album_ids`). -/
def usedAlbumIds (songs : List SongEntry) : List Nat :=
  (songs.filter (fun s => decide (s.flags &&& FLAG_DELETED = 0))).map
    (fun s => s.album_id)

/-- The artist-rebuild loop of `compact_library`: keep only used
artists, re-intern their names into the fresh pool, assign fresh
contiguous ids and record `old id ↦ new id`. -/
def rebuildArtists (old_strings : List String) (old_artists : List ArtistEntry)
    (used : List Nat) (st : StringTable) :
    StringTable × List ArtistEntry × List (Nat × Nat) :=
  old_artists.enum.foldl
    (fun acc p =>
      if p.1 ∈ used then
        let new_id := acc.2.1.length
        let r := acc.1.add (old_strings.getD p.2.name_string_id "")
        (r.2, acc.2.1 ++ [⟨r.1⟩], alInsert acc.2.2 p.1 new_id)
      else acc)
    (st, [], [])

/-- The album-rebuild loop: keep only used albums, re-intern names,
remap the owning artist id (`unwrap_or(&0)`). -/
def rebuildAlbums (old_strings : List String) (old_albums : List AlbumEntry)
    (used : List Nat) (artist_id_map : List (Nat × Nat)) (st : StringTable) :
    StringTable × List AlbumEntry × List (Nat × Nat) :=
  old_albums.enum.foldl
    (fun acc p =>
      if p.1 ∈ used then
        let new_id := acc.2.1.length
        let r := acc.1.add (old_strings.getD p.2.name_string_id "")
        (r.2, acc.2.1 ++ [⟨r.1, (alFind p.2.artist_id artist_id_map).getD 0, p.2.year⟩],
          alInsert acc.2.2 p.1 new_id)
      else acc)
    (st, [], [])

/-- The song-rebuild loop: drop deleted songs, re-intern title and
path, remap artist/album ids, record `old song id ↦ new song id`. -/
def rebuildSongs (old_strings : List String) (old_songs : List SongEntry)
    (artist_id_map album_id_map : List (Nat × Nat)) (st : StringTable) :
    StringTable × List SongEntry × List (Nat × Nat) :=
  old_songs.enum.foldl
    (fun acc p =>
      if p.2.flags &&& FLAG_DELETED ≠ 0 then acc
      else
        let r1 := acc.1.add (old_strings.getD p.2.title_string_id "")
        let r2 := r1.2.add (old_strings.getD p.2.path_string_id "")
        let new_song_id := acc.2.1.length
        (r2.2, acc.2.1 ++ [SongEntry.mk_new r1.1
            ((alFind p.2.artist_id artist_id_map).getD 0)
            ((alFind p.2.album_id album_id_map).getD 0)
            r2.1 p.2.track_number p.2.duration_sec],
          alInsert acc.2.2 p.1 new_song_id))
    (st, [], [])

/-- `compact_library`: rebuild the catalogue keeping only active songs
and the artists/albums/strings they still reference, then rewrite
*every* playlist through the old-to-new song id map — an id with no
entry in the map is dropped, the rest are translated in place. -/
def compact_library (c : Catalogue) (playlists : List (String × List Nat)) :
    Catalogue × List (String × List Nat) × CompactResult :=
  let ra := rebuildArtists c.strings c.artists (usedArtistIds c.songs)
    StringTable.new
  let rb := rebuildAlbums c.strings c.albums (usedAlbumIds c.songs) ra.2.2 ra.1
  let rs := rebuildSongs c.strings c.songs ra.2.2 rb.2.2 rb.1
  let song_id_map := rs.2.2
  let new_playlists := playlists.map
    (fun p => (p.1, p.2.filterMap (fun old_id => alFind old_id song_id_map)))
  (⟨rs.1.strings, ra.2.1, rb.2.1, rs.2.1⟩, new_playlists,
    ⟨(c.songs.filter (fun s => decide (s.flags &&& FLAG_DELETED ≠ 0))).length,
      c.artists.length - ra.2.1.length,
      c.albums.length - rb.2.1.length,
      c.strings.length - rs.1.strings.length,
      new_playlists.length⟩)

/-! ## Association-list and string-table lemmas -/

theorem alFind_mem {α β : Type} [DecidableEq α] {k : α} {v : β} :
    ∀ {l : List (α × β)}, alFind k l = some v → (k, v) ∈ l := by
  intro l
  induction l with
  | nil => intro h; simp [alFind] at h
  | cons p rest ih =>
      intro h
      obtain ⟨a, b⟩ := p
      by_cases ha : a = k
      · subst ha
        simp [alFind] at h
        subst h
        exact List.mem_cons_self _ _
      · simp [alFind, ha] at h
        exact List.mem_cons_of_mem _ (ih h)

theorem alFind_eq_none_of_keys {α β : Type} [DecidableEq α] (k : α) :
    ∀ (l : List (α × β)), (∀ p ∈ l, p.1 ≠ k) → alFind k l = none := by
  intro l
  induction l with
  | nil => intro _; rfl
  | cons p rest ih =>
      intro h
      obtain ⟨a, b⟩ := p
      have ha : a ≠ k := h (a, b) (List.mem_cons_self _ _)
      simp [alFind, ha]
      exact ih (fun q hq => h q (List.mem_cons_of_mem _ hq))

theorem alFind_append {α β : Type} [DecidableEq α] (k : α) :
    ∀ (l₁ l₂ : List (α × β)), alFind k (l₁ ++ l₂) =
      match alFind k l₁ with
      | some v => some v
      | none => alFind k l₂ := by
  intro l₁ l₂
  induction l₁ with
  | nil => simp [alFind]
  | cons p rest ih =>
      obtain ⟨a, b⟩ := p
      by_cases ha : a = k
      · simp [alFind, ha]
      · simpa [alFind, ha] using ih

/-- The invariant tying `lookup` to `strings`: every binding of the
lookup resolves to its string in the pool.  It holds for a freshly
loaded table (`from_vec`) and is preserved by `add`. -/
def STInv (t : StringTable) : Prop :=
  ∀ s i, alFind s t.lookup = some i → t.strings.get? i = some s

theorem STInv_fromVec (ss : List String) : STInv (StringTable.fromVec ss) := by
  intro s i h
  show ss.get? i = some s
  have hmem := alFind_mem h
  simp only [StringTable.fromVec, List.mem_reverse, List.mem_map] at hmem
  obtain ⟨⟨j, x⟩, hj, hswap⟩ := hmem
  obtain ⟨hx, hi⟩ : x = s ∧ j = i := by
    constructor <;> [exact congrArg Prod.fst hswap; exact congrArg Prod.snd hswap]
  subst hx; subst hi
  rw [List.enum_eq_enumFrom] at hj
  obtain ⟨-, hlt, hval⟩ := List.mem_enumFrom hj
  rw [List.get?_eq_getElem?, List.getElem?_eq_getElem (by omega)]
  simp at hval
  rw [hval]

theorem STInv_add (t : StringTable) (s : String) (h : STInv t) :
    STInv (t.add s).2 := by
  unfold StringTable.add
  cases hf : alFind s t.lookup with
  | some id => exact h
  | none =>
      intro s' i hfind
      simp only [alInsert] at hfind
      by_cases hs : s = s'
      · subst hs
        simp [alFind] at hfind
        subst hfind
        exact List.get?_concat_length _ _
      · rw [alFind_cons, if_neg hs] at hfind
        have := h s' i hfind
        have hlt : i < t.strings.length := by
          by_contra hge
          rw [List.get?_eq_getElem?, List.getElem?_eq_none (by omega)] at this
          exact Option.noConfusion this
        rw [List.get?_eq_getElem?, List.getElem?_append_left hlt,
          ← List.get?_eq_getElem?]
        exact this

/-- The id `add` returns resolves to the added string. -/
theorem add_resolves (t : StringTable) (s : String) (h : STInv t) :
    (t.add s).2.strings.get? (t.add s).1 = some s := by
  unfold StringTable.add
  cases hf : alFind s t.lookup with
  | some id => exact h s id hf
  | none => exact List.get?_concat_length _ _

/-- `add` only appends: existing pool entries keep their positions. -/
theorem add_strings_mono (t : StringTable) (s : String) (i : Nat) (x : String)
    (h : t.strings.get? i = some x) : (t.add s).2.strings.get? i = some x := by
  unfold StringTable.add
  cases hf : alFind s t.lookup with
  | some id => exact h
  | none =>
      have hlt : i < t.strings.length := by
        by_contra hge
        rw [List.get?_eq_getElem?, List.getElem?_eq_none (by omega)] at h
        exact Option.noConfusion h
      rw [List.get?_eq_getElem?, List.getElem?_append_left hlt,
        ← List.get?_eq_getElem?]
      exact h

theorem add_strings_cases (t : StringTable) (s : String) :
    (t.add s).2.strings = t.strings ∨ (t.add s).2.strings = t.strings ++ [s] := by
  unfold StringTable.add
  cases alFind s t.lookup with
  | some id => exact Or.inl rfl
  | none => exact Or.inr rfl

/-- `STInv` is preserved by the resolve-or-create artist block. -/
theorem STInv_getOrCreateArtist (st : StringTable) (artists : List ArtistEntry)
    (m : List (String × Nat)) (name : String) (h : STInv st) :
    STInv (getOrCreateArtist st artists m name).2.1 := by
  unfold getOrCreateArtist
  cases alFind name m with
  | some id => exact h
  | none => exact STInv_add st name h

theorem STInv_getOrCreateAlbum (st : StringTable) (albums : List AlbumEntry)
    (m : List (String × Nat)) (aid : Nat) (name : String) (year : Nat)
    (h : STInv st) : STInv (getOrCreateAlbum st albums m aid name year).2.1 := by
  unfold getOrCreateAlbum
  cases alFind (albumKey aid name) m with
  | some id => exact h
  | none => exact STInv_add st name h

theorem getOrCreateArtist_strings_mono (st : StringTable)
    (artists : List ArtistEntry) (m : List (String × Nat)) (name : String)
    (i : Nat) (x : String) (h : st.strings.get? i = some x) :
    (getOrCreateArtist st artists m name).2.1.strings.get? i = some x := by
  unfold getOrCreateArtist
  cases alFind name m with
  | some id => exact h
  | none => exact add_strings_mono st name i x h

theorem getOrCreateAlbum_strings_mono (st : StringTable)
    (albums : List AlbumEntry) (m : List (String × Nat)) (aid : Nat)
    (name : String) (year : Nat) (i : Nat) (x : String)
    (h : st.strings.get? i = some x) :
    (getOrCreateAlbum st albums m aid name year).2.1.strings.get? i = some x := by
  unfold getOrCreateAlbum
  cases alFind (albumKey aid name) m with
  | some id => exact h
  | none => exact add_strings_mono st name i x h

/-! ## `markDeleted` and playlist-remap lemmas -/

theorem markDeleted_length (songs : List SongEntry) (i : Nat) :
    (markDeleted songs i).length = songs.length := by
  unfold markDeleted
  cases songs.get? i with
  | none => rfl
  | some s => exact List.length_set _ _ _

theorem markDeleted_get_self (songs : List SongEntry) (i : Nat) (s : SongEntry)
    (h : songs.get? i = some s) :
    (markDeleted songs i).get? i = some { s with flags := FLAG_DELETED } := by
  unfold markDeleted
  rw [h]
  have hlt : i < songs.length := by
    by_contra hge
    rw [List.get?_eq_getElem?, List.getElem?_eq_none (by omega)] at h
    exact Option.noConfusion h
  rw [List.get?_eq_getElem?]
  simp [List.getElem?_set_self hlt]

theorem markDeleted_get_ne (songs : List SongEntry) (i j : Nat) (h : j ≠ i) :
    (markDeleted songs i).get? j = songs.get? j := by
  unfold markDeleted
  cases songs.get? i with
  | none => rfl
  | some s =>
      rw [List.get?_eq_getElem?, List.getElem?_set_ne (fun he => h he.symm),
        ← List.get?_eq_getElem?]

theorem remap_song_id_in_playlists_eq (old_id new_id : Nat) :
    ∀ (pls : List (String × List Nat)) (acc : List (String × List Nat) × Nat),
      pls.foldl
        (fun acc p =>
          if old_id ∈ p.2 then
            (acc.1 ++ [(p.1, p.2.map (fun i => if i = old_id then new_id else i))],
              acc.2 + 1)
          else (acc.1 ++ [p], acc.2)) acc =
      (acc.1 ++ pls.map (fun p =>
          if old_id ∈ p.2 then
            (p.1, p.2.map (fun i => if i = old_id then new_id else i))
          else p),
        acc.2 + (pls.filter (fun p => decide (old_id ∈ p.2))).length) := by
  intro pls
  induction pls with
  | nil => intro acc; simp
  | cons p rest ih =>
      intro acc
      by_cases hp : old_id ∈ p.2
      · simp only [List.foldl_cons, if_pos hp]
        rw [ih]
        simp [hp]
        omega
      · simp only [List.foldl_cons, if_neg hp]
        rw [ih]
        simp [hp]

/-! ## Generic lemmas on the rebuild loops of `compact_library`

The three rebuild loops of `compact_library` share one shape: a fold
over an enumerated table that, when its gate passes, threads the string
table, appends one new entry, and maps `old id ↦ number of entries
appended so far`.  The lemmas below are proved once for any function
`f` of that shape (characterised pointwise by `hf`). -/

theorem rebuildLoop_length {α γ : Type} (gate : Nat × α → Bool)
    (f : StringTable × List γ × List (Nat × Nat) → Nat × α →
      StringTable × List γ × List (Nat × Nat))
    (stup : StringTable × List γ × List (Nat × Nat) → Nat × α → StringTable)
    (mke : StringTable × List γ × List (Nat × Nat) → Nat × α → γ)
    (hf : ∀ acc p, f acc p =
      if gate p then
        (stup acc p, acc.2.1 ++ [mke acc p], alInsert acc.2.2 p.1 acc.2.1.length)
      else acc) :
    ∀ (l : List α) (n : Nat) (acc : StringTable × List γ × List (Nat × Nat)),
      ((List.enumFrom n l).foldl f acc).2.1.length =
        acc.2.1.length + ((List.enumFrom n l).filter gate).length := by
  intro l
  induction l with
  | nil => intro n acc; simp
  | cons x rest ih =>
      intro n acc
      rw [List.enumFrom_cons, List.foldl_cons, hf]
      by_cases hg : gate (n, x) = true
      · rw [if_pos hg, ih]
        simp [List.filter_cons, hg]
        omega
      · rw [if_neg hg, ih]
        simp only [List.filter_cons]
        rw [if_neg (by simpa using hg)]

theorem rebuildLoop_find {α γ : Type} (gate : Nat × α → Bool)
    (f : StringTable × List γ × List (Nat × Nat) → Nat × α →
      StringTable × List γ × List (Nat × Nat))
    (stup : StringTable × List γ × List (Nat × Nat) → Nat × α → StringTable)
    (mke : StringTable × List γ × List (Nat × Nat) → Nat × α → γ)
    (hf : ∀ acc p, f acc p =
      if gate p then
        (stup acc p, acc.2.1 ++ [mke acc p], alInsert acc.2.2 p.1 acc.2.1.length)
      else acc) :
    ∀ (l : List α) (n : Nat) (acc : StringTable × List γ × List (Nat × Nat))
      (oid : Nat),
      alFind oid ((List.enumFrom n l).foldl f acc).2.2 =
        match (if n ≤ oid then l.get? (oid - n) else none) with
        | some x =>
            if gate (oid, x) then
              some (acc.2.1.length +
                (((List.enumFrom n l).take (oid - n)).filter gate).length)
            else alFind oid acc.2.2
        | none => alFind oid acc.2.2 := by
  intro l
  induction l with
  | nil =>
      intro n acc oid
      simp only [List.enumFrom_nil, List.foldl_nil, List.get?_nil, List.take_nil]
      cases Nat.decLe n oid <;> simp_all
  | cons x rest ih =>
      intro n acc oid
      rw [List.enumFrom_cons, List.foldl_cons, hf]
      rcases Nat.lt_trichotomy oid n with hlt | heq | hgt
      · -- oid < n: no key ≥ n can match; both sides fall through to acc
        have hn : ¬ n ≤ oid := by omega
        have hn1 : ¬ n + 1 ≤ oid := by omega
        rw [if_neg hn]
        by_cases hg : gate (n, x) = true
        · rw [if_pos hg, ih]
          rw [if_neg hn1]
          simp only [alInsert, alFind_cons, if_neg (by omega : ¬ n = oid)]
        · rw [if_neg hg, ih]
          rw [if_neg hn1]
      · -- oid = n: the head entry decides
        subst heq
        have hn : oid ≤ oid := le_refl _
        rw [if_pos hn]
        have hsub : oid - oid = 0 := by omega
        rw [hsub]
        simp only [List.get?_cons_zero, List.take_zero, List.filter_nil,
          List.length_nil, Nat.add_zero]
        by_cases hg : gate (oid, x) = true
        · rw [if_pos hg, ih]
          rw [if_neg (by omega : ¬ oid + 1 ≤ oid)]
          simp [alInsert, alFind_cons, hg]
        · rw [if_neg hg, if_neg hg, ih]
          rw [if_neg (by omega : ¬ oid + 1 ≤ oid)]
      · -- oid > n: head entry cannot match key oid; index shifts by one
        have hn : n ≤ oid := by omega
        have hn1 : n + 1 ≤ oid := by omega
        have hsub : oid - n = (oid - (n + 1)) + 1 := by omega
        rw [if_pos hn, hsub]
        simp only [List.get?_cons_succ, List.take_succ_cons, List.filter_cons]
        by_cases hg : gate (n, x) = true
        · rw [if_pos hg, ih]
          rw [if_pos hn1]
          cases hx : rest.get? (oid - (n + 1)) with
          | none => simp [alInsert, alFind_cons, if_neg (by omega : ¬ n = oid)]
          | some y =>
              simp only []
              by_cases hgy : gate (oid, y) = true
              · rw [if_pos hgy, if_pos hgy]
                simp only [List.length_append, List.length_cons, List.length_nil]
                rw [if_pos hg]
                simp [Nat.add_comm, Nat.add_assoc, Nat.add_left_comm]
              · rw [if_neg hgy, if_neg hgy]
                simp [alInsert, alFind_cons, if_neg (by omega : ¬ n = oid)]
        · rw [if_neg hg, ih]
          rw [if_pos hn1]
          cases hx : rest.get? (oid - (n + 1)) with
          | none => rfl
          | some y =>
              simp only []
              by_cases hgy : gate (oid, y) = true
              · rw [if_pos hgy, if_pos hgy]
                rw [if_neg (by simpa using hg)]
              · rw [if_neg hgy, if_neg hgy]

theorem rebuildLoop_acc_mono {α γ : Type} (gate : Nat × α → Bool)
    (f : StringTable × List γ × List (Nat × Nat) → Nat × α →
      StringTable × List γ × List (Nat × Nat))
    (stup : StringTable × List γ × List (Nat × Nat) → Nat × α → StringTable)
    (mke : StringTable × List γ × List (Nat × Nat) → Nat × α → γ)
    (hf : ∀ acc p, f acc p =
      if gate p then
        (stup acc p, acc.2.1 ++ [mke acc p], alInsert acc.2.2 p.1 acc.2.1.length)
      else acc) :
    ∀ (l : List α) (n : Nat) (acc : StringTable × List γ × List (Nat × Nat))
      (e : γ), e ∈ acc.2.1 → e ∈ ((List.enumFrom n l).foldl f acc).2.1 := by
  intro l
  induction l with
  | nil => intro n acc e he; simpa using he
  | cons x rest ih =>
      intro n acc e he
      rw [List.enumFrom_cons, List.foldl_cons, hf]
      by_cases hg : gate (n, x) = true
      · rw [if_pos hg]
        exact ih (n + 1) _ e (List.mem_append_left _ he)
      · rw [if_neg hg]
        exact ih (n + 1) _ e he

theorem rebuildLoop_exists {α γ : Type} (gate : Nat × α → Bool)
    (f : StringTable × List γ × List (Nat × Nat) → Nat × α →
      StringTable × List γ × List (Nat × Nat))
    (stup : StringTable × List γ × List (Nat × Nat) → Nat × α → StringTable)
    (mke : StringTable × List γ × List (Nat × Nat) → Nat × α → γ)
    (hf : ∀ acc p, f acc p =
      if gate p then
        (stup acc p, acc.2.1 ++ [mke acc p], alInsert acc.2.2 p.1 acc.2.1.length)
      else acc) :
    ∀ (l : List α) (n : Nat) (acc : StringTable × List γ × List (Nat × Nat))
      (oid : Nat) (x : α), (oid, x) ∈ List.enumFrom n l → gate (oid, x) = true →
      ∃ acc', mke acc' (oid, x) ∈ ((List.enumFrom n l).foldl f acc).2.1 := by
  intro l
  induction l with
  | nil => intro n acc oid x hmem; simp at hmem
  | cons y rest ih =>
      intro n acc oid x hmem hg
      rw [List.enumFrom_cons] at hmem
      rw [List.enumFrom_cons, List.foldl_cons, hf]
      rcases List.mem_cons.mp hmem with heq | hmem'
      · have h1 : oid = n := congrArg Prod.fst heq
        have h2 : x = y := congrArg Prod.snd heq
        subst h1; subst h2
        rw [if_pos hg]
        exact ⟨acc, rebuildLoop_acc_mono gate f stup mke hf rest (oid + 1) _ _
          (List.mem_append_right _ (List.mem_singleton.mpr rfl))⟩
      · by_cases hg' : gate (n, y) = true
        · rw [if_pos hg']
          exact ih (n + 1) _ oid x hmem' hg
        · rw [if_neg hg']
          exact ih (n + 1) _ oid x hmem' hg

theorem rebuildLoop_prov {α γ : Type} (gate : Nat × α → Bool)
    (f : StringTable × List γ × List (Nat × Nat) → Nat × α →
      StringTable × List γ × List (Nat × Nat))
    (stup : StringTable × List γ × List (Nat × Nat) → Nat × α → StringTable)
    (mke : StringTable × List γ × List (Nat × Nat) → Nat × α → γ)
    (hf : ∀ acc p, f acc p =
      if gate p then
        (stup acc p, acc.2.1 ++ [mke acc p], alInsert acc.2.2 p.1 acc.2.1.length)
      else acc) :
    ∀ (l : List α) (n : Nat) (acc : StringTable × List γ × List (Nat × Nat))
      (e : γ), e ∈ ((List.enumFrom n l).foldl f acc).2.1 →
      e ∈ acc.2.1 ∨
        ∃ acc' p, p ∈ List.enumFrom n l ∧ gate p = true ∧ e = mke acc' p := by
  intro l
  induction l with
  | nil => intro n acc e he; exact Or.inl (by simpa using he)
  | cons x rest ih =>
      intro n acc e he
      rw [List.enumFrom_cons, List.foldl_cons, hf] at he
      rw [List.enumFrom_cons]
      by_cases hg : gate (n, x) = true
      · rw [if_pos hg] at he
        rcases ih (n + 1) _ e he with hacc | ⟨acc', p, hp, hpg, hpe⟩
        · rcases List.mem_append.mp hacc with hl | hr
          · exact Or.inl hl
          · exact Or.inr ⟨acc, (n, x), List.mem_cons_self _ _, hg,
              (List.mem_singleton.mp hr)⟩
        · exact Or.inr ⟨acc', p, List.mem_cons_of_mem _ hp, hpg, hpe⟩
      · rw [if_neg hg] at he
        rcases ih (n + 1) _ e he with hacc | ⟨acc', p, hp, hpg, hpe⟩
        · exact Or.inl hacc
        · exact Or.inr ⟨acc', p, List.mem_cons_of_mem _ hp, hpg, hpe⟩

theorem rebuildLoop_surj {α γ : Type} (gate : Nat × α → Bool)
    (f : StringTable × List γ × List (Nat × Nat) → Nat × α →
      StringTable × List γ × List (Nat × Nat))
    (stup : StringTable × List γ × List (Nat × Nat) → Nat × α → StringTable)
    (mke : StringTable × List γ × List (Nat × Nat) → Nat × α → γ)
    (hf : ∀ acc p, f acc p =
      if gate p then
        (stup acc p, acc.2.1 ++ [mke acc p], alInsert acc.2.2 p.1 acc.2.1.length)
      else acc) :
    ∀ (l : List α) (n : Nat) (acc : StringTable × List γ × List (Nat × Nat))
      (aid : Nat), aid < ((List.enumFrom n l).foldl f acc).2.1.length →
      aid < acc.2.1.length ∨
        ∃ p, p ∈ List.enumFrom n l ∧ gate p = true ∧
          alFind p.1 ((List.enumFrom n l).foldl f acc).2.2 = some aid := by
  intro l
  induction l with
  | nil => intro n acc aid h; exact Or.inl (by simpa using h)
  | cons x rest ih =>
      intro n acc aid h
      rw [List.enumFrom_cons, List.foldl_cons, hf] at h
      rw [List.enumFrom_cons, List.foldl_cons, hf]
      by_cases hg : gate (n, x) = true
      · rw [if_pos hg] at h ⊢
        rcases ih (n + 1) _ aid h with hlt | ⟨p, hp, hpg, hpf⟩
        · rw [List.length_append, List.length_cons, List.length_nil] at hlt
          by_cases haid : aid < acc.2.1.length
          · exact Or.inl haid
          · have haid_eq : aid = acc.2.1.length := by omega
            right
            refine ⟨(n, x), List.mem_cons_self _ _, hg, ?_⟩
            rw [rebuildLoop_find gate f stup mke hf rest (n + 1) _ n]
            rw [if_neg (by omega : ¬ n + 1 ≤ n)]
            simp [alInsert, alFind_cons, haid_eq]
        · exact Or.inr ⟨p, List.mem_cons_of_mem _ hp, hpg, hpf⟩
      · rw [if_neg hg] at h ⊢
        rcases ih (n + 1) _ aid h with hlt | ⟨p, hp, hpg, hpf⟩
        · exact Or.inl hlt
        · exact Or.inr ⟨p, List.mem_cons_of_mem _ hp, hpg, hpf⟩

/-! ### Counting helpers -/

theorem enumFrom_filter_snd_length {α : Type} (q : α → Bool) :
    ∀ (l : List α) (n : Nat),
      ((List.enumFrom n l).filter (fun p => q p.2)).length = (l.filter q).length := by
  intro l
  induction l with
  | nil => intro n; rfl
  | cons x rest ih =>
      intro n
      rw [List.enumFrom_cons]
      by_cases hq : q x = true
      · simp [List.filter_cons, hq, ih]
      · simp [List.filter_cons, hq, ih]

theorem enumFrom_take_filter_snd_length {α : Type} (q : α → Bool) :
    ∀ (l : List α) (n i : Nat),
      (((List.enumFrom n l).take i).filter (fun p => q p.2)).length =
        ((l.take i).filter q).length := by
  intro l
  induction l with
  | nil => intro n i; simp
  | cons x rest ih =>
      intro n i
      cases i with
      | zero => simp
      | succ j =>
          rw [List.enumFrom_cons, List.take_succ_cons, List.take_succ_cons]
          by_cases hq : q x = true
          · simp [List.filter_cons, hq, ih]
          · simp [List.filter_cons, hq, ih]

theorem take_filter_length_lt {α : Type} (p : α → Bool) (l : List α) (i : Nat)
    (x : α) (hx : l.get? i = some x) (hpx : p x = true) :
    ((l.take i).filter p).length < (l.filter p).length := by
  have hi : i < l.length := by
    by_contra hge
    rw [List.get?_eq_getElem?, List.getElem?_eq_none (by omega)] at hx
    exact Option.noConfusion hx
  conv_rhs => rw [← List.take_append_drop i l]
  rw [List.filter_append, List.length_append]
  rw [List.drop_eq_getElem_cons hi, List.filter_cons]
  have hx' : l[i] = x := by
    rw [List.get?_eq_getElem?, List.getElem?_eq_getElem hi] at hx
    exact Option.some.inj hx
  rw [hx', if_pos hpx]
  simp

/-! ## C4 — compaction rewrites every playlist through the id map -/

/-- The `old song id ↦ new song id` map `compact_library` produces. -/
def compactSongIdMap (c : Catalogue) : List (Nat × Nat) :=
  let ra := rebuildArtists c.strings c.artists (usedArtistIds c.songs)
    StringTable.new
  let rb := rebuildAlbums c.strings c.albums (usedAlbumIds c.songs) ra.2.2 ra.1
  (rebuildSongs c.strings c.songs ra.2.2 rb.2.2 rb.1).2.2

/-- The song-id map of compaction: an id whose row is deleted (or out
of range) has no entry; a surviving id maps to its rank among the
active songs that precede it. -/
theorem rebuildSongs_find (old_strings : List String)
    (am alm : List (Nat × Nat)) (st : StringTable) (songs : List SongEntry)
    (oid : Nat) :
    alFind oid (rebuildSongs old_strings songs am alm st).2.2 =
      match songs.get? oid with
      | some s =>
          if s.flags &&& FLAG_DELETED = 0 then
            some (((songs.take oid).filter
              (fun s' => decide (s'.flags &&& FLAG_DELETED = 0))).length)
          else none
      | none => none := by
  unfold rebuildSongs
  rw [List.enum_eq_enumFrom]
  rw [rebuildLoop_find (fun p => decide (p.2.flags &&& FLAG_DELETED = 0)) _
    (fun acc p => ((acc.1.add (old_strings.getD p.2.title_string_id "")).2.add
      (old_strings.getD p.2.path_string_id "")).2)
    (fun acc p => SongEntry.mk_new
      (acc.1.add (old_strings.getD p.2.title_string_id "")).1
      ((alFind p.2.artist_id am).getD 0) ((alFind p.2.album_id alm).getD 0)
      ((acc.1.add (old_strings.getD p.2.title_string_id "")).2.add
        (old_strings.getD p.2.path_string_id "")).1
      p.2.track_number p.2.duration_sec)
    (by
      intro acc p
      by_cases h : p.2.flags &&& FLAG_DELETED = 0 <;> simp [h])
    songs 0 (st, [], []) oid]
  simp only [Nat.zero_le, if_true, Nat.sub_zero]
  cases hs : songs.get? oid with
  | none => rfl
  | some s =>
      simp only []
      by_cases hact : s.flags &&& FLAG_DELETED = 0
      · rw [if_pos (by simpa using hact), if_pos hact]
        rw [enumFrom_take_filter_snd_length (α := SongEntry)
          (fun s' => decide (s'.flags &&& FLAG_DELETED = 0))]
        simp
      · rw [if_neg (by simpa using hact), if_neg hact]
        rfl

theorem compactSongIdMap_find (c : Catalogue) (oid : Nat) :
    alFind oid (compactSongIdMap c) =
      match c.songs.get? oid with
      | some s =>
          if s.flags &&& FLAG_DELETED = 0 then
            some (((c.songs.take oid).filter
              (fun s' => decide (s'.flags &&& FLAG_DELETED = 0))).length)
          else none
      | none => none := by
  unfold compactSongIdMap
  exact rebuildSongs_find _ _ _ _ _ _

theorem filterMap_eq_filter_map_getD (f : Nat → Option Nat) :
    ∀ l : List Nat, l.filterMap f =
      (l.filter (fun x => (f x).isSome)).map (fun x => (f x).getD 0) := by
  intro l
  induction l with
  | nil => rfl
  | cons x rest ih =>
      rw [List.filterMap_cons, List.filter_cons]
      cases hf : f x with
      | none => simp [hf, ih]
      | some v => simp [hf, ih]

/-- Claim C4: after `compact_library` every playlist file has been
rewritten through the old-to-new id map compaction produced: an id
with no entry in the map — exactly the deleted or out-of-range song
ids — is dropped; every surviving id is translated to its new id (its
rank among preceding active songs); and the surviving entries keep
their relative order (the rewritten list is the map of the translated
survivors, in place). -/
theorem compact_rewrites_every_playlist (c : Catalogue)
    (playlists : List (String × List Nat)) :
    ((compact_library c playlists).2.1 =
      playlists.map (fun p =>
        (p.1, p.2.filterMap (fun oid => alFind oid (compactSongIdMap c))))) ∧
    ((compact_library c playlists).2.2.playlists_updated = playlists.length) ∧
    (∀ oid, alFind oid (compactSongIdMap c) =
      match c.songs.get? oid with
      | some s =>
          if s.flags &&& FLAG_DELETED = 0 then
            some (((c.songs.take oid).filter
              (fun s' => decide (s'.flags &&& FLAG_DELETED = 0))).length)
          else none
      | none => none) ∧
    (∀ ids : List Nat,
      ids.filterMap (fun oid => alFind oid (compactSongIdMap c)) =
        (ids.filter (fun oid => (alFind oid (compactSongIdMap c)).isSome)).map
          (fun oid => (alFind oid (compactSongIdMap c)).getD 0)) :=
  ⟨rfl, by simp [compact_library], compactSongIdMap_find c,
    filterMap_eq_filter_map_getD _⟩

/-! ## C1 — compaction referential integrity

Instance lemmas for the three rebuild loops, then the main theorem. -/

theorem mem_enumFrom_zero_of_get? {α : Type} {l : List α} {i : Nat} {x : α}
    (h : l.get? i = some x) : (i, x) ∈ List.enumFrom 0 l := by
  have he := List.enumFrom_get? 0 l i
  rw [h] at he
  simp only [Option.map_some', Nat.zero_add] at he
  exact List.get?_mem he

theorem snd_mem_of_mem_enumFrom {α : Type} {l : List α} {n i : Nat} {x : α}
    (h : (i, x) ∈ List.enumFrom n l) : x ∈ l := by
  obtain ⟨-, hlt, hval⟩ := List.mem_enumFrom h
  rw [hval]
  exact List.getElem_mem _

theorem mem_usedArtistIds (songs : List SongEntry) (s : SongEntry)
    (hs : s ∈ songs) (hact : s.flags &&& FLAG_DELETED = 0) :
    s.artist_id ∈ usedArtistIds songs := by
  unfold usedArtistIds
  exact List.mem_map.mpr ⟨s, List.mem_filter.mpr ⟨hs, by simpa using hact⟩, rfl⟩

theorem of_mem_usedArtistIds (songs : List SongEntry) (oid : Nat)
    (h : oid ∈ usedArtistIds songs) :
    ∃ s ∈ songs, s.flags &&& FLAG_DELETED = 0 ∧ s.artist_id = oid := by
  unfold usedArtistIds at h
  obtain ⟨s, hs, hart⟩ := List.mem_map.mp h
  obtain ⟨hmem, hact⟩ := List.mem_filter.mp hs
  exact ⟨s, hmem, by simpa using hact, hart⟩

theorem mem_usedAlbumIds (songs : List SongEntry) (s : SongEntry)
    (hs : s ∈ songs) (hact : s.flags &&& FLAG_DELETED = 0) :
    s.album_id ∈ usedAlbumIds songs := by
  unfold usedAlbumIds
  exact List.mem_map.mpr ⟨s, List.mem_filter.mpr ⟨hs, by simpa using hact⟩, rfl⟩

theorem of_mem_usedAlbumIds (songs : List SongEntry) (oid : Nat)
    (h : oid ∈ usedAlbumIds songs) :
    ∃ s ∈ songs, s.flags &&& FLAG_DELETED = 0 ∧ s.album_id = oid := by
  unfold usedAlbumIds at h
  obtain ⟨s, hs, hart⟩ := List.mem_map.mp h
  obtain ⟨hmem, hact⟩ := List.mem_filter.mp hs
  exact ⟨s, hmem, by simpa using hact, hart⟩

theorem rebuildArtists_find (ss : List String) (arts : List ArtistEntry)
    (used : List Nat) (st : StringTable) (oid : Nat) :
    alFind oid (rebuildArtists ss arts used st).2.2 =
      match arts.get? oid with
      | some _ =>
          if oid ∈ used then
            some ((((List.enumFrom 0 arts).take oid).filter
              (fun p => decide (p.1 ∈ used))).length)
          else none
      | none => none := by
  unfold rebuildArtists
  rw [List.enum_eq_enumFrom]
  rw [rebuildLoop_find (fun p => decide (p.1 ∈ used)) _
    (fun acc p => (acc.1.add (ss.getD p.2.name_string_id "")).2)
    (fun acc p => (⟨(acc.1.add (ss.getD p.2.name_string_id "")).1⟩ : ArtistEntry))
    (by intro acc p; by_cases h : p.1 ∈ used <;> simp [h])
    arts 0 (st, [], []) oid]
  simp only [Nat.zero_le, if_true, Nat.sub_zero]
  cases arts.get? oid with
  | none => rfl
  | some x =>
      simp only []
      by_cases h : oid ∈ used
      · rw [if_pos (by simpa using h), if_pos h]
        simp
      · rw [if_neg (by simpa using h), if_neg h]
        rfl

theorem rebuildArtists_length (ss : List String) (arts : List ArtistEntry)
    (used : List Nat) (st : StringTable) :
    (rebuildArtists ss arts used st).2.1.length =
      ((List.enumFrom 0 arts).filter (fun p => decide (p.1 ∈ used))).length := by
  unfold rebuildArtists
  rw [List.enum_eq_enumFrom]
  rw [rebuildLoop_length (fun p => decide (p.1 ∈ used)) _
    (fun acc p => (acc.1.add (ss.getD p.2.name_string_id "")).2)
    (fun acc p => (⟨(acc.1.add (ss.getD p.2.name_string_id "")).1⟩ : ArtistEntry))
    (by intro acc p; by_cases h : p.1 ∈ used <;> simp [h])
    arts 0 (st, [], [])]
  simp

theorem rebuildArtists_surj (ss : List String) (arts : List ArtistEntry)
    (used : List Nat) (st : StringTable) (aid : Nat)
    (h : aid < (rebuildArtists ss arts used st).2.1.length) :
    ∃ p, p ∈ List.enumFrom 0 arts ∧ p.1 ∈ used ∧
      alFind p.1 (rebuildArtists ss arts used st).2.2 = some aid := by
  unfold rebuildArtists at h ⊢
  rw [List.enum_eq_enumFrom] at h ⊢
  rcases rebuildLoop_surj (fun p => decide (p.1 ∈ used)) _
    (fun acc p => (acc.1.add (ss.getD p.2.name_string_id "")).2)
    (fun acc p => (⟨(acc.1.add (ss.getD p.2.name_string_id "")).1⟩ : ArtistEntry))
    (by intro acc p; by_cases hq : p.1 ∈ used <;> simp [hq])
    arts 0 (st, [], []) aid h with h0 | ⟨p, hp, hpg, hpf⟩
  · simp at h0
  · exact ⟨p, hp, by simpa using hpg, hpf⟩

theorem rebuildAlbums_find (ss : List String) (albs : List AlbumEntry)
    (used : List Nat) (aim : List (Nat × Nat)) (st : StringTable) (oid : Nat) :
    alFind oid (rebuildAlbums ss albs used aim st).2.2 =
      match albs.get? oid with
      | some _ =>
          if oid ∈ used then
            some ((((List.enumFrom 0 albs).take oid).filter
              (fun p => decide (p.1 ∈ used))).length)
          else none
      | none => none := by
  unfold rebuildAlbums
  rw [List.enum_eq_enumFrom]
  rw [rebuildLoop_find (fun p => decide (p.1 ∈ used)) _
    (fun acc p => (acc.1.add (ss.getD p.2.name_string_id "")).2)
    (fun acc p => (⟨(acc.1.add (ss.getD p.2.name_string_id "")).1,
      (alFind p.2.artist_id aim).getD 0, p.2.year⟩ : AlbumEntry))
    (by intro acc p; by_cases h : p.1 ∈ used <;> simp [h])
    albs 0 (st, [], []) oid]
  simp only [Nat.zero_le, if_true, Nat.sub_zero]
  cases albs.get? oid with
  | none => rfl
  | some x =>
      simp only []
      by_cases h : oid ∈ used
      · rw [if_pos (by simpa using h), if_pos h]
        simp
      · rw [if_neg (by simpa using h), if_neg h]
        rfl

theorem rebuildAlbums_length (ss : List String) (albs : List AlbumEntry)
    (used : List Nat) (aim : List (Nat × Nat)) (st : StringTable) :
    (rebuildAlbums ss albs used aim st).2.1.length =
      ((List.enumFrom 0 albs).filter (fun p => decide (p.1 ∈ used))).length := by
  unfold rebuildAlbums
  rw [List.enum_eq_enumFrom]
  rw [rebuildLoop_length (fun p => decide (p.1 ∈ used)) _
    (fun acc p => (acc.1.add (ss.getD p.2.name_string_id "")).2)
    (fun acc p => (⟨(acc.1.add (ss.getD p.2.name_string_id "")).1,
      (alFind p.2.artist_id aim).getD 0, p.2.year⟩ : AlbumEntry))
    (by intro acc p; by_cases h : p.1 ∈ used <;> simp [h])
    albs 0 (st, [], [])]
  simp

theorem rebuildAlbums_surj (ss : List String) (albs : List AlbumEntry)
    (used : List Nat) (aim : List (Nat × Nat)) (st : StringTable) (aid : Nat)
    (h : aid < (rebuildAlbums ss albs used aim st).2.1.length) :
    ∃ p, p ∈ List.enumFrom 0 albs ∧ p.1 ∈ used ∧
      alFind p.1 (rebuildAlbums ss albs used aim st).2.2 = some aid := by
  unfold rebuildAlbums at h ⊢
  rw [List.enum_eq_enumFrom] at h ⊢
  rcases rebuildLoop_surj (fun p => decide (p.1 ∈ used)) _
    (fun acc p => (acc.1.add (ss.getD p.2.name_string_id "")).2)
    (fun acc p => (⟨(acc.1.add (ss.getD p.2.name_string_id "")).1,
      (alFind p.2.artist_id aim).getD 0, p.2.year⟩ : AlbumEntry))
    (by intro acc p; by_cases hq : p.1 ∈ used <;> simp [hq])
    albs 0 (st, [], []) aid h with h0 | ⟨p, hp, hpg, hpf⟩
  · simp at h0
  · exact ⟨p, hp, by simpa using hpg, hpf⟩

theorem rebuildSongs_length (ss : List String) (songs : List SongEntry)
    (am alm : List (Nat × Nat)) (st : StringTable) :
    (rebuildSongs ss songs am alm st).2.1.length =
      (songs.filter (fun s => decide (s.flags &&& FLAG_DELETED = 0))).length := by
  unfold rebuildSongs
  rw [List.enum_eq_enumFrom]
  rw [rebuildLoop_length (fun p => decide (p.2.flags &&& FLAG_DELETED = 0)) _
    (fun acc p => ((acc.1.add (ss.getD p.2.title_string_id "")).2.add
      (ss.getD p.2.path_string_id "")).2)
    (fun acc p => SongEntry.mk_new
      (acc.1.add (ss.getD p.2.title_string_id "")).1
      ((alFind p.2.artist_id am).getD 0) ((alFind p.2.album_id alm).getD 0)
      ((acc.1.add (ss.getD p.2.title_string_id "")).2.add
        (ss.getD p.2.path_string_id "")).1
      p.2.track_number p.2.duration_sec)
    (by intro acc p; by_cases h : p.2.flags &&& FLAG_DELETED = 0 <;> simp [h])
    songs 0 (st, [], [])]
  rw [enumFrom_filter_snd_length (α := SongEntry)
    (fun s => decide (s.flags &&& FLAG_DELETED = 0))]
  simp

theorem rebuildSongs_prov (ss : List String) (songs : List SongEntry)
    (am alm : List (Nat × Nat)) (st : StringTable) (ns : SongEntry)
    (h : ns ∈ (rebuildSongs ss songs am alm st).2.1) :
    ∃ i s, (i, s) ∈ List.enumFrom 0 songs ∧ s.flags &&& FLAG_DELETED = 0 ∧
      ns.artist_id = (alFind s.artist_id am).getD 0 ∧
      ns.album_id = (alFind s.album_id alm).getD 0 := by
  unfold rebuildSongs at h
  rw [List.enum_eq_enumFrom] at h
  rcases rebuildLoop_prov (fun p => decide (p.2.flags &&& FLAG_DELETED = 0)) _
    (fun acc p => ((acc.1.add (ss.getD p.2.title_string_id "")).2.add
      (ss.getD p.2.path_string_id "")).2)
    (fun acc p => SongEntry.mk_new
      (acc.1.add (ss.getD p.2.title_string_id "")).1
      ((alFind p.2.artist_id am).getD 0) ((alFind p.2.album_id alm).getD 0)
      ((acc.1.add (ss.getD p.2.title_string_id "")).2.add
        (ss.getD p.2.path_string_id "")).1
      p.2.track_number p.2.duration_sec)
    (by intro acc p; by_cases hq : p.2.flags &&& FLAG_DELETED = 0 <;> simp [hq])
    songs 0 (st, [], []) ns h with h0 | ⟨acc', p, hp, hpg, hpe⟩
  · simp at h0
  · exact ⟨p.1, p.2, hp, by simpa using hpg,
      by rw [hpe]; rfl, by rw [hpe]; rfl⟩

theorem rebuildSongs_exists (ss : List String) (songs : List SongEntry)
    (am alm : List (Nat × Nat)) (st : StringTable) (i : Nat) (s : SongEntry)
    (hmem : (i, s) ∈ List.enumFrom 0 songs)
    (hact : s.flags &&& FLAG_DELETED = 0) :
    ∃ ns ∈ (rebuildSongs ss songs am alm st).2.1,
      ns.artist_id = (alFind s.artist_id am).getD 0 ∧
      ns.album_id = (alFind s.album_id alm).getD 0 := by
  unfold rebuildSongs
  rw [List.enum_eq_enumFrom]
  obtain ⟨acc', hmem'⟩ := rebuildLoop_exists
    (fun p => decide (p.2.flags &&& FLAG_DELETED = 0))
    (fun acc p =>
      if p.2.flags &&& FLAG_DELETED ≠ 0 then acc
      else
        let r1 := acc.1.add (ss.getD p.2.title_string_id "")
        let r2 := r1.2.add (ss.getD p.2.path_string_id "")
        let new_song_id := acc.2.1.length
        (r2.2, acc.2.1 ++ [SongEntry.mk_new r1.1
            ((alFind p.2.artist_id am).getD 0)
            ((alFind p.2.album_id alm).getD 0)
            r2.1 p.2.track_number p.2.duration_sec],
          alInsert acc.2.2 p.1 new_song_id))
    (fun acc p => ((acc.1.add (ss.getD p.2.title_string_id "")).2.add
      (ss.getD p.2.path_string_id "")).2)
    (fun acc p => SongEntry.mk_new
      (acc.1.add (ss.getD p.2.title_string_id "")).1
      ((alFind p.2.artist_id am).getD 0) ((alFind p.2.album_id alm).getD 0)
      ((acc.1.add (ss.getD p.2.title_string_id "")).2.add
        (ss.getD p.2.path_string_id "")).1
      p.2.track_number p.2.duration_sec)
    (by intro acc p; by_cases hq : p.2.flags &&& FLAG_DELETED = 0 <;> simp [hq])
    songs 0 (st, [], []) i s hmem (by simpa using hact)
  exact ⟨_, hmem', rfl, rfl⟩


/-- Claim C1: on a well-formed catalogue, after `compact_library`
every surviving song row's `artist_id`/`album_id` indexes an in-bounds
row of the new artist/album tables; every artist and album row of the
new catalogue is referenced by at least one surviving song; and every
song id of every rewritten playlist indexes a song row of the new
catalogue. -/
theorem compact_referential_integrity (c : Catalogue)
    (playlists : List (String × List Nat)) (hwf : c.WF) :
    (∀ s ∈ (compact_library c playlists).1.songs,
        s.artist_id < (compact_library c playlists).1.artists.length ∧
        s.album_id < (compact_library c playlists).1.albums.length) ∧
    (∀ aid, aid < (compact_library c playlists).1.artists.length →
        ∃ s ∈ (compact_library c playlists).1.songs, s.artist_id = aid) ∧
    (∀ alid, alid < (compact_library c playlists).1.albums.length →
        ∃ s ∈ (compact_library c playlists).1.songs, s.album_id = alid) ∧
    (∀ p ∈ (compact_library c playlists).2.1, ∀ id ∈ p.2,
        id < (compact_library c playlists).1.songs.length) := by
  obtain ⟨hwfS, hwfA, hwfAl⟩ := hwf
  have hSeq : (compact_library c playlists).1.songs =
      (rebuildSongs c.strings c.songs
        (rebuildArtists c.strings c.artists (usedArtistIds c.songs)
          StringTable.new).2.2
        (rebuildAlbums c.strings c.albums (usedAlbumIds c.songs)
          (rebuildArtists c.strings c.artists (usedArtistIds c.songs)
            StringTable.new).2.2
          (rebuildArtists c.strings c.artists (usedArtistIds c.songs)
            StringTable.new).1).2.2
        (rebuildAlbums c.strings c.albums (usedAlbumIds c.songs)
          (rebuildArtists c.strings c.artists (usedArtistIds c.songs)
            StringTable.new).2.2
          (rebuildArtists c.strings c.artists (usedArtistIds c.songs)
            StringTable.new).1).1).2.1 := rfl
  have hAeq : (compact_library c playlists).1.artists =
      (rebuildArtists c.strings c.artists (usedArtistIds c.songs)
        StringTable.new).2.1 := rfl
  have hALeq : (compact_library c playlists).1.albums =
      (rebuildAlbums c.strings c.albums (usedAlbumIds c.songs)
        (rebuildArtists c.strings c.artists (usedArtistIds c.songs)
          StringTable.new).2.2
        (rebuildArtists c.strings c.artists (usedArtistIds c.songs)
          StringTable.new).1).2.1 := rfl
  have hPeq : (compact_library c playlists).2.1 =
      playlists.map (fun p => (p.1, p.2.filterMap
        (fun oid => alFind oid (compactSongIdMap c)))) := rfl
  refine ⟨?_, ?_, ?_, ?_⟩
  · -- (a) surviving songs reference in-bounds rows
    intro ns hns
    rw [hSeq] at hns
    obtain ⟨i, s₀, hmem, hact, hart, halb⟩ :=
      rebuildSongs_prov _ _ _ _ _ ns hns
    have hs₀ : s₀ ∈ c.songs := snd_mem_of_mem_enumFrom hmem
    obtain ⟨-, -, hasb, halsb⟩ := hwfS s₀ hs₀
    constructor
    · -- artist bound
      rw [hAeq, hart]
      obtain ⟨ae, hae⟩ : ∃ ae, c.artists.get? s₀.artist_id = some ae := by
        rw [List.get?_eq_getElem?, List.getElem?_eq_getElem hasb]
        exact ⟨_, rfl⟩
      have hused : s₀.artist_id ∈ usedArtistIds c.songs :=
        mem_usedArtistIds _ _ hs₀ hact
      have hfind := rebuildArtists_find c.strings c.artists
        (usedArtistIds c.songs) StringTable.new s₀.artist_id
      rw [hae] at hfind
      simp only [if_pos hused] at hfind
      rw [hfind, Option.getD_some, rebuildArtists_length]
      exact take_filter_length_lt _ _ _ (s₀.artist_id, ae)
        (by rw [List.enumFrom_get?, hae]; simp) (by simpa using hused)
    · -- album bound
      rw [hALeq, halb]
      obtain ⟨ale, hale⟩ : ∃ ale, c.albums.get? s₀.album_id = some ale := by
        rw [List.get?_eq_getElem?, List.getElem?_eq_getElem halsb]
        exact ⟨_, rfl⟩
      have hused : s₀.album_id ∈ usedAlbumIds c.songs :=
        mem_usedAlbumIds _ _ hs₀ hact
      have hfind := rebuildAlbums_find c.strings c.albums
        (usedAlbumIds c.songs)
        (rebuildArtists c.strings c.artists (usedArtistIds c.songs)
          StringTable.new).2.2
        (rebuildArtists c.strings c.artists (usedArtistIds c.songs)
          StringTable.new).1 s₀.album_id
      rw [hale] at hfind
      simp only [if_pos hused] at hfind
      rw [hfind, Option.getD_some, rebuildAlbums_length]
      exact take_filter_length_lt _ _ _ (s₀.album_id, ale)
        (by rw [List.enumFrom_get?, hale]; simp) (by simpa using hused)
  · -- (b) every artist row is referenced by a surviving song
    intro aid haid
    rw [hAeq] at haid
    obtain ⟨p, hpmem, hpused, hpfind⟩ :=
      rebuildArtists_surj c.strings c.artists (usedArtistIds c.songs)
        StringTable.new aid haid
    obtain ⟨s₀, hs₀mem, hs₀act, hs₀art⟩ :=
      of_mem_usedArtistIds c.songs p.1 hpused
    obtain ⟨i, hi⟩ := List.get_of_mem hs₀mem
    have hget : c.songs.get? i.1 = some s₀ := by
      rw [List.get?_eq_get i.2, hi]
    obtain ⟨ns, hns, hnsart, -⟩ :=
      rebuildSongs_exists c.strings c.songs _ _ _ i.1 s₀
        (mem_enumFrom_zero_of_get? hget) hs₀act
    refine ⟨ns, ?_, ?_⟩
    · rw [hSeq]
      exact hns
    · rw [hnsart, hs₀art, hpfind, Option.getD_some]
  · -- (b') every album row is referenced by a surviving song
    intro alid halid
    rw [hALeq] at halid
    obtain ⟨p, hpmem, hpused, hpfind⟩ :=
      rebuildAlbums_surj c.strings c.albums (usedAlbumIds c.songs)
        (rebuildArtists c.strings c.artists (usedArtistIds c.songs)
          StringTable.new).2.2
        (rebuildArtists c.strings c.artists (usedArtistIds c.songs)
          StringTable.new).1 alid halid
    obtain ⟨s₀, hs₀mem, hs₀act, hs₀alb⟩ :=
      of_mem_usedAlbumIds c.songs p.1 hpused
    obtain ⟨i, hi⟩ := List.get_of_mem hs₀mem
    have hget : c.songs.get? i.1 = some s₀ := by
      rw [List.get?_eq_get i.2, hi]
    obtain ⟨ns, hns, -, hnsalb⟩ :=
      rebuildSongs_exists c.strings c.songs _ _ _ i.1 s₀
        (mem_enumFrom_zero_of_get? hget) hs₀act
    refine ⟨ns, ?_, ?_⟩
    · rw [hSeq]
      exact hns
    · rw [hnsalb, hs₀alb, hpfind, Option.getD_some]
  · -- (c) playlist ids index rows of the new catalogue
    intro p hp id hid
    rw [hPeq] at hp
    obtain ⟨q, hq, hqp⟩ := List.mem_map.mp hp
    rw [← hqp] at hid
    obtain ⟨oid, -, hfind⟩ := List.mem_filterMap.mp hid
    rw [compactSongIdMap_find] at hfind
    rw [hSeq, rebuildSongs_length]
    cases hget : c.songs.get? oid with
    | none => rw [hget] at hfind; exact absurd hfind (by simp)
    | some s₀ =>
        rw [hget] at hfind
        simp only [] at hfind
        by_cases hact : s₀.flags &&& FLAG_DELETED = 0
        · rw [if_pos hact] at hfind
          have hid_eq : id = ((c.songs.take oid).filter
              (fun s' => decide (s'.flags &&& FLAG_DELETED = 0))).length := by
            exact (Option.some.inj hfind).symm
          rw [hid_eq]
          exact take_filter_length_lt _ _ _ s₀ hget (by simpa using hact)
        · rw [if_neg hact] at hfind
          exact absurd hfind (by simp)

/-- Witness for C1 at a concrete input: a catalogue with one deleted
and one active song compacts to a catalogue whose single song row
references in-bounds artist/album rows. -/
theorem compact_referential_integrity_witness :
    ((compact_library
        ⟨["T1", "A", "AL", "00/001.mp3", "T2", "00/002.mp3"],
          [⟨1⟩], [⟨2, 0, 2020⟩],
          [⟨0, 0, 0, 3, 1, 100, 1⟩, ⟨4, 0, 0, 5, 2, 100, 0⟩]⟩
        [("p", [0, 1, 7])]).1.songs.getD 0 default).artist_id <
      (compact_library
        ⟨["T1", "A", "AL", "00/001.mp3", "T2", "00/002.mp3"],
          [⟨1⟩], [⟨2, 0, 2020⟩],
          [⟨0, 0, 0, 3, 1, 100, 1⟩, ⟨4, 0, 0, 5, 2, 100, 0⟩]⟩
        [("p", [0, 1, 7])]).1.artists.length := by
  have h := compact_referential_integrity
    ⟨["T1", "A", "AL", "00/001.mp3", "T2", "00/002.mp3"],
      [⟨1⟩], [⟨2, 0, 2020⟩],
      [⟨0, 0, 0, 3, 1, 100, 1⟩, ⟨4, 0, 0, 5, 2, 100, 0⟩]⟩
    [("p", [0, 1, 7])] (by decide)
  exact (h.1 _ (by decide)).1

/-! ## C2 — a missing required metadata field aborts the whole batch

The spec claims a validation failure is scoped to the one file and the
batch continues.  In the source the three required fields are checked
with `ok_or("Missing …")?`, whose `?` propagates the error out of
`save_to_library`: the whole call fails, the remaining files are not
processed and no per-batch counts are returned. -/

/-- Counterexample to C2 as stated: a batch of two files — the first
complete, the second missing its title — does not continue past the
bad file; the entire `save_to_library` call returns the error
`"Missing title"` instead of per-batch counts. -/
theorem save_missing_field_counterexample :
    save_to_library ⟨[], [], [], []⟩ [(0, [])]
      [⟨true, "mp3", ⟨some "T", some "A", some "AL", some 2020, some 1, some 100⟩⟩,
        ⟨true, "mp3", ⟨none, some "A", some "AL", none, none, none⟩⟩] =
      .error "Missing title" := by
  rfl

/-- A batch item whose source file exists but whose metadata misses a
required field. -/
def missingRequired (f : FileToSave) : Prop :=
  f.source_exists = true ∧
    (f.metadata.title = none ∨ f.metadata.artist = none ∨ f.metadata.album = none)

instance (f : FileToSave) : Decidable (missingRequired f) := by
  unfold missingRequired
  infer_instance

theorem saveStep_error_of_missing (l : SaveLoop) (f : FileToSave)
    (h : missingRequired f) : ∃ msg, saveStep l f = .error msg := by
  obtain ⟨hsrc, hfield⟩ := h
  rcases hfield with ht | ha | hal
  · exact ⟨"Missing title", by simp [saveStep, hsrc, ht]⟩
  · cases hti : f.metadata.title with
    | none => exact ⟨"Missing title", by simp [saveStep, hsrc, hti]⟩
    | some t => exact ⟨"Missing artist", by simp [saveStep, hsrc, hti, ha]⟩
  · cases hti : f.metadata.title with
    | none => exact ⟨"Missing title", by simp [saveStep, hsrc, hti]⟩
    | some t =>
        cases har : f.metadata.artist with
        | none => exact ⟨"Missing artist", by simp [saveStep, hsrc, hti, har]⟩
        | some a => exact ⟨"Missing album", by simp [saveStep, hsrc, hti, har, hal]⟩

theorem foldlM_saveStep_error (files : List FileToSave) :
    ∀ l : SaveLoop, (∃ f ∈ files, missingRequired f) →
      ∃ msg, files.foldlM saveStep l = .error msg := by
  induction files with
  | nil => intro l h; obtain ⟨f, hf, _⟩ := h; cases hf
  | cons f rest ih =>
      intro l h
      by_cases hbad : missingRequired f
      · obtain ⟨msg, hmsg⟩ := saveStep_error_of_missing l f hbad
        exact ⟨msg, by simp only [List.foldlM, hmsg]; rfl⟩
      · obtain ⟨g, hg, hgbad⟩ := h
        have hgrest : g ∈ rest := by
          rcases List.mem_cons.mp hg with rfl | h'
          · exact absurd hgbad hbad
          · exact h'
        cases hstep : saveStep l f with
        | error msg => exact ⟨msg, by simp only [List.foldlM, hstep]; rfl⟩
        | ok l' =>
            obtain ⟨msg, hmsg⟩ := ih l' ⟨g, hgrest, hgbad⟩
            refine ⟨msg, ?_⟩
            show saveStep l f >>= (fun s' => List.foldlM saveStep s' rest) = Except.error msg
            rw [hstep]
            exact hmsg

/-- Amended C2: a batch item whose source file exists but whose
metadata misses title, artist or album makes the **entire**
`save_to_library` call fail — the batch does not continue and no
per-batch counts are returned.  (Only a *missing source file* is
skipped per-item.) -/
theorem save_missing_field_aborts_call (c : Catalogue) (music : MusicDir)
    (files : List FileToSave) (h : ∃ f ∈ files, missingRequired f) :
    (save_to_library c music files).isOk = false := by
  obtain ⟨msg, hmsg⟩ := foldlM_saveStep_error files (initLoop (effectiveCatalogue c) music) h
  unfold save_to_library
  simp only [hmsg]
  rfl

/-- Witness for the amended C2 at a concrete input. -/
theorem save_missing_field_aborts_call_witness :
    (save_to_library ⟨[], [], [], []⟩ [(0, [])]
      [⟨true, "mp3", ⟨some "T", some "A", some "AL", some 2020, some 1, some 100⟩⟩,
        ⟨true, "mp3", ⟨none, some "A", some "AL", none, none, none⟩⟩]).isOk = false :=
  save_missing_field_aborts_call ⟨[], [], [], []⟩ [(0, [])] _
    ⟨⟨true, "mp3", ⟨none, some "A", some "AL", none, none, none⟩⟩,
      by decide, by decide⟩

/-! ## C3 — edit vs. soft-delete-then-ingest

Claim C3 is a refinement claim: `edit_song_metadata(song_id, m)` should
equal soft-delete(song_id) followed by the *ingest* of one new row that
reuses the deleted row's blob path — including the ingest-side
duplicate check.  The comparator below follows the spec's words; the
source's `edit_song_metadata` performs **no** duplicate check, so the
two disagree exactly when `m` duplicates another active song's key. -/

/-- The ingest-side duplicate check, run the way the spec's composite
would run it after the soft delete: resolve-or-create artist and album
for `m`, peek the title, and test the `(title_string_id, artist_id,
album_id)` key against the active songs of the post-delete catalogue. -/
def editWouldDuplicate (c : Catalogue) (song_id : Nat) (m : AudioMetadata) : Bool :=
  match m.title, m.artist, m.album with
  | some title, some artist_name, some album_name =>
      let songs0 := markDeleted c.songs song_id
      let st0 := StringTable.fromVec c.strings
      let ra := getOrCreateArtist st0 c.artists
        (buildArtistMap c.strings c.artists) artist_name
      let rb := getOrCreateAlbum ra.2.1 c.albums
        (buildAlbumMap c.strings c.albums) ra.1 album_name
        (m.year.getD 0 % 65536)
      match rb.2.1.get_or_peek title with
      | some tid => decide ((tid, ra.1, rb.1) ∈ (buildSongSets songs0).1)
      | none => false
  | _, _, _ => false

/-- The spec-side composite of claim C3 (written from the spec's words,
`§4.2 Edit`): soft-delete `song_id`, then ingest one new row carrying
`m` and the deleted row's blob path — with the ingest-side duplicate
check, under which a duplicate appends no row (artist/album additions
are kept, as ingest keeps them). -/
def editAsDeleteThenIngestSpec (c : Catalogue) (song_id : Nat)
    (m : AudioMetadata) : Except String Catalogue :=
  if c.songs.length ≤ song_id then
    .error ("Song " ++ toString song_id ++ " not found")
  else
    let songs0 := markDeleted c.songs song_id
    let old_path_string_id := (songs0.getD song_id default).path_string_id
    match c.strings.get? old_path_string_id with
    | none => .error "Failed to get old song path"
    | some old_path =>
        match m.artist with
        | none => .error "Missing artist"
        | some artist_name =>
            match m.album with
            | none => .error "Missing album"
            | some album_name =>
                match m.title with
                | none => .error "Missing title"
                | some title =>
                    let ra := getOrCreateArtist (StringTable.fromVec c.strings)
                      c.artists (buildArtistMap c.strings c.artists) artist_name
                    let artist_id := ra.1
                    let rb := getOrCreateAlbum ra.2.1 c.albums
                      (buildAlbumMap c.strings c.albums) artist_id album_name
                      (m.year.getD 0 % 65536)
                    let album_id := rb.1
                    if editWouldDuplicate c song_id m then
                      .ok ⟨rb.2.1.strings, ra.2.2.1, rb.2.2.1, songs0⟩
                    else
                      let r1 := rb.2.1.add title
                      let r2 := r1.2.add old_path
                      .ok ⟨r2.2.strings, ra.2.2.1, rb.2.2.1,
                        songs0 ++ [SongEntry.mk_new r1.1 artist_id album_id r2.1
                          (m.track_number.getD 0 % 65536)
                          (m.duration_secs.getD 0 % 65536)]⟩

/-- Counterexample to C3 as stated: a catalogue with two active songs
`T1` and `T2` under the same artist/album; editing song 0 so its
metadata equals song 1's `(title, artist, album)` key.  The composite
with the duplicate check skips the append (2 rows), while
`edit_song_metadata` appends a second active row with the duplicate
key (3 rows): the two results differ. -/
theorem edit_duplicate_key_counterexample :
    (edit_song_metadata
        ⟨["T1", "A", "AL", "00/001.mp3", "T2", "00/002.mp3"],
          [⟨1⟩], [⟨2, 0, 2020⟩],
          [⟨0, 0, 0, 3, 1, 100, 0⟩, ⟨4, 0, 0, 5, 2, 100, 0⟩]⟩
        [] 0 ⟨some "T2", some "A", some "AL", none, none, none⟩).toOption.map
      (fun r => r.1) ≠
    (editAsDeleteThenIngestSpec
        ⟨["T1", "A", "AL", "00/001.mp3", "T2", "00/002.mp3"],
          [⟨1⟩], [⟨2, 0, 2020⟩],
          [⟨0, 0, 0, 3, 1, 100, 0⟩, ⟨4, 0, 0, 5, 2, 100, 0⟩]⟩
        0 ⟨some "T2", some "A", some "AL", none, none, none⟩).toOption := by
  decide

/-- Amended C3: `edit_song_metadata` equals soft-delete followed by
ingest of one row reusing the deleted row's blob path *without* the
ingest-side duplicate check; equivalently, the refinement as claimed
holds exactly on metadata whose key does not duplicate an existing
active song.  (When it does duplicate, the counterexample above shows
edit appends the row anyway.) -/
theorem edit_refines_delete_then_ingest (c : Catalogue)
    (playlists : List (String × List Nat)) (song_id : Nat)
    (m : AudioMetadata) (t a al : String)
    (hid : song_id < c.songs.length)
    (ht : m.title = some t) (ha : m.artist = some a) (hal : m.album = some al)
    (hdup : editWouldDuplicate c song_id m = false) :
    (edit_song_metadata c playlists song_id m).toOption.map (fun r => r.1) =
      (editAsDeleteThenIngestSpec c song_id m).toOption := by
  have hc : ¬ c.songs.length ≤ song_id := by omega
  simp only [edit_song_metadata, editAsDeleteThenIngestSpec, if_neg hc, ht, ha,
    hal, hdup, Bool.false_eq_true, if_false]
  cases hpath : c.strings.get?
      ((markDeleted c.songs song_id).getD song_id default).path_string_id with
  | none => rfl
  | some old_path => rfl

/-- Witness for the amended C3 at a concrete input: editing song 0 to
a fresh, non-duplicate title agrees with the spec-side composite. -/
theorem edit_refines_delete_then_ingest_witness :
    (edit_song_metadata
        ⟨["T1", "A", "AL", "00/001.mp3", "T2", "00/002.mp3"],
          [⟨1⟩], [⟨2, 0, 2020⟩],
          [⟨0, 0, 0, 3, 1, 100, 0⟩, ⟨4, 0, 0, 5, 2, 100, 0⟩]⟩
        [("p", [0])] 0
        ⟨some "T3", some "A", some "AL", none, none, none⟩).toOption.map
      (fun r => r.1) =
    (editAsDeleteThenIngestSpec
        ⟨["T1", "A", "AL", "00/001.mp3", "T2", "00/002.mp3"],
          [⟨1⟩], [⟨2, 0, 2020⟩],
          [⟨0, 0, 0, 3, 1, 100, 0⟩, ⟨4, 0, 0, 5, 2, 100, 0⟩]⟩
        0 ⟨some "T3", some "A", some "AL", none, none, none⟩).toOption :=
  edit_refines_delete_then_ingest _ _ 0 _ "T3" "A" "AL" (by decide) rfl rfl rfl
    (by decide)

/-! ## C6 — edit preserves the blob path, changes the id, remaps playlists -/

theorem edit_ok_eq (c : Catalogue) (playlists : List (String × List Nat))
    (song_id : Nat) (m : AudioMetadata) (t a al p₀ : String)
    (hid : song_id < c.songs.length)
    (hpath : c.strings.get?
      ((markDeleted c.songs song_id).getD song_id default).path_string_id = some p₀)
    (ht : m.title = some t) (ha : m.artist = some a) (hal : m.album = some al) :
    edit_song_metadata c playlists song_id m =
      (let songs0 := markDeleted c.songs song_id
      let ra := getOrCreateArtist (StringTable.fromVec c.strings) c.artists
        (buildArtistMap c.strings c.artists) a
      let rb := getOrCreateAlbum ra.2.1 c.albums
        (buildAlbumMap c.strings c.albums) ra.1 al (m.year.getD 0 % 65536)
      let r1 := rb.2.1.add t
      let r2 := r1.2.add p₀
      let rp := remap_song_id_in_playlists playlists song_id songs0.length
      .ok (⟨r2.2.strings, ra.2.2.1, rb.2.2.1,
          songs0 ++ [SongEntry.mk_new r1.1 ra.1 rb.1 r2.1
            (m.track_number.getD 0 % 65536) (m.duration_secs.getD 0 % 65536)]⟩,
        rp.1,
        ⟨songs0.length, c.artists.length < ra.2.2.1.length,
          c.albums.length < rb.2.2.1.length, rp.2⟩)) := by
  have hc : ¬ c.songs.length ≤ song_id := by omega
  simp only [edit_song_metadata, if_neg hc, hpath, ht, ha, hal]

/-- Claim C6: for an in-range `song_id` on a well-formed catalogue,
`edit_song_metadata` returns a new song id distinct from the old one
(the old table length), leaves the old row in place with
`flags = DELETED` (all other rows untouched), appends a new `ACTIVE`
row whose path string resolves to the *same* blob path as the old
row's (no blob copy — the path string is reused), and rewrites exactly
those playlists that contained the old id, replacing each occurrence
(duplicates included) of the old id by the new id in place, preserving
order. -/
theorem edit_preserves_blob_changes_id (c : Catalogue)
    (playlists : List (String × List Nat)) (song_id : Nat) (m : AudioMetadata)
    (t a al : String) (hwf : c.WF) (hid : song_id < c.songs.length)
    (ht : m.title = some t) (ha : m.artist = some a) (hal : m.album = some al) :
    ∃ c' pls' res s,
      edit_song_metadata c playlists song_id m = .ok (c', pls', res) ∧
      c.songs.get? song_id = some s ∧
      res.new_song_id = c.songs.length ∧
      song_id ≠ res.new_song_id ∧
      c'.songs.length = c.songs.length + 1 ∧
      c'.songs.get? song_id = some { s with flags := FLAG_DELETED } ∧
      (∀ j, j ≠ song_id → j < c.songs.length → c'.songs.get? j = c.songs.get? j) ∧
      (∃ ns p₀, c'.songs.get? res.new_song_id = some ns ∧ ns.flags = FLAG_ACTIVE ∧
        c.strings.get? s.path_string_id = some p₀ ∧
        c'.strings.get? ns.path_string_id = some p₀) ∧
      pls' = playlists.map (fun p =>
        if song_id ∈ p.2 then
          (p.1, p.2.map (fun i => if i = song_id then res.new_song_id else i))
        else p) ∧
      res.playlists_updated =
        (playlists.filter (fun p => decide (song_id ∈ p.2))).length := by
  have hs : c.songs.get? song_id = some (c.songs.get ⟨song_id, hid⟩) :=
    List.get?_eq_get hid
  obtain ⟨hts, hps, has, hals⟩ :=
    hwf.1 (c.songs.get ⟨song_id, hid⟩) (List.get_mem _ _ _)
  obtain ⟨p₀, hp₀⟩ : ∃ p₀,
      c.strings.get? (c.songs.get ⟨song_id, hid⟩).path_string_id = some p₀ := by
    rw [List.get?_eq_getElem?, List.getElem?_eq_getElem hps]
    exact ⟨_, rfl⟩
  have hmlen : (markDeleted c.songs song_id).length = c.songs.length :=
    markDeleted_length _ _
  have hgetd : (markDeleted c.songs song_id).getD song_id default =
      { c.songs.get ⟨song_id, hid⟩ with flags := FLAG_DELETED } := by
    have hmd := markDeleted_get_self c.songs song_id _ hs
    rw [List.get?_eq_getElem?] at hmd
    simp [List.getD, hmd]
  have hpath : c.strings.get?
      ((markDeleted c.songs song_id).getD song_id default).path_string_id =
      some p₀ := by
    rw [hgetd]
    exact hp₀
  rw [edit_ok_eq c playlists song_id m t a al p₀ hid hpath ht ha hal]
  simp only []
  have hinv : STInv ((getOrCreateAlbum (getOrCreateArtist
      (StringTable.fromVec c.strings) c.artists
      (buildArtistMap c.strings c.artists) a).2.1 c.albums
      (buildAlbumMap c.strings c.albums)
      (getOrCreateArtist (StringTable.fromVec c.strings) c.artists
        (buildArtistMap c.strings c.artists) a).1 al
      (m.year.getD 0 % 65536)).2.1.add t).2 :=
    STInv_add _ t (STInv_getOrCreateAlbum _ _ _ _ _ _
      (STInv_getOrCreateArtist _ _ _ _ (STInv_fromVec _)))
  refine ⟨_, _, _, c.songs.get ⟨song_id, hid⟩, rfl, hs, hmlen,
    (by rw [hmlen]; exact Nat.ne_of_lt hid), ?_, ?_, ?_, ?_, ?_, ?_⟩
  · simp [hmlen]
  · rw [List.get?_append (by rw [hmlen]; exact hid)]
    exact markDeleted_get_self c.songs song_id _ hs
  · intro j hj hjlt
    rw [List.get?_append (by rw [hmlen]; exact hjlt)]
    exact markDeleted_get_ne c.songs song_id j hj
  · refine ⟨SongEntry.mk_new _ _ _ _ _ _, p₀, List.get?_concat_length _ _, rfl,
      hp₀, ?_⟩
    exact add_resolves _ p₀ hinv
  · simp only [remap_song_id_in_playlists]
    rw [remap_song_id_in_playlists_eq]
    simp
  · simp only [remap_song_id_in_playlists]
    rw [remap_song_id_in_playlists_eq]
    simp

/-- Witness for C6 at a concrete input: editing song 0 of a two-song
catalogue yields new id 2 and rewrites the one playlist that contained
id 0 (with its duplicate occurrences). -/
theorem edit_preserves_blob_changes_id_witness :
    (edit_song_metadata
        ⟨["T1", "A", "AL", "00/001.mp3", "T2", "00/002.mp3"],
          [⟨1⟩], [⟨2, 0, 2020⟩],
          [⟨0, 0, 0, 3, 1, 100, 0⟩, ⟨4, 0, 0, 5, 2, 100, 0⟩]⟩
        [("p", [0, 0, 1]), ("q", [1])] 0
        ⟨some "T3", some "A", some "AL", none, none, none⟩).toOption.map
      (fun r => (r.2.2.new_song_id, r.2.2.playlists_updated)) = some (2, 1) := by
  obtain ⟨c', pls', res, s, heq, -, hnew, -, -, -, -, -, -, hupd⟩ :=
    edit_preserves_blob_changes_id
      ⟨["T1", "A", "AL", "00/001.mp3", "T2", "00/002.mp3"],
        [⟨1⟩], [⟨2, 0, 2020⟩],
        [⟨0, 0, 0, 3, 1, 100, 0⟩, ⟨4, 0, 0, 5, 2, 100, 0⟩]⟩
      [("p", [0, 0, 1]), ("q", [1])] 0
      ⟨some "T3", some "A", some "AL", none, none, none⟩
      "T3" "A" "AL" (by decide) (by decide) rfl rfl rfl
  rw [heq]
  simp only [Except.toOption, Option.map_some', Option.some.injEq]
  rw [hnew, hupd]
  decide

/-! ## Support for C5 — the string table built by adds is canonical

`add` keeps `lookup` equal to the lookup `from_vec` would rebuild from
the same pool, so writing the pool out and re-loading it reproduces the
in-memory table exactly. -/

theorem add_lookup_find_self (t : StringTable) (s : String) :
    alFind s (t.add s).2.lookup = some (t.add s).1 := by
  unfold StringTable.add
  cases hf : alFind s t.lookup with
  | some id => exact hf
  | none => simp [alInsert, alFind]

theorem add_lookup_find_other (t : StringTable) (s x : String) (i : Nat)
    (h : alFind x t.lookup = some i) :
    alFind x (t.add s).2.lookup = some i := by
  unfold StringTable.add
  cases hf : alFind s t.lookup with
  | some id => exact h
  | none =>
      simp only [alInsert, alFind_cons]
      by_cases he : s = x
      · subst he
        rw [hf] at h
        exact absurd h (by simp)
      · rw [if_neg he]
        exact h

/-- The lookup of a table equals the lookup `from_vec` rebuilds from
its pool. -/
def STCanon (t : StringTable) : Prop :=
  t.lookup = (StringTable.fromVec t.strings).lookup

theorem STCanon_fromVec (ss : List String) : STCanon (StringTable.fromVec ss) := rfl

theorem STCanon_add (t : StringTable) (s : String) (h : STCanon t) :
    STCanon (t.add s).2 := by
  unfold StringTable.add
  cases hf : alFind s t.lookup with
  | some id => exact h
  | none =>
      show alInsert t.lookup s t.strings.length =
        (StringTable.fromVec (t.strings ++ [s])).lookup
      rw [h]
      unfold StringTable.fromVec alInsert
      rw [List.enum_append, List.map_append, List.reverse_append]
      simp

theorem STCanon_eta (t : StringTable) (h : STCanon t) :
    StringTable.fromVec t.strings = t := by
  obtain ⟨ss, lk⟩ := t
  unfold STCanon at h
  simp only at h
  rw [StringTable.mk.injEq]
  exact ⟨rfl, by rw [h]⟩

/-! ## Support for C5 — the rebuilt lookup maps

After the catalogue is written and re-loaded, `artist_map`,
`album_map` and `song_set` are rebuilt from the tables; the lemmas
below let the rebuilt structures be compared with the in-memory ones
of the previous call. -/

theorem insertFold_mem {α : Type} (key : Nat × α → String) :
    ∀ (l : List (Nat × α)) (acc : List (String × Nat)) (p : String × Nat),
      p ∈ l.foldl (fun m q => alInsert m (key q) q.1) acc →
      p ∈ acc ∨ ∃ q ∈ l, p = (key q, q.1) := by
  intro l
  induction l with
  | nil => intro acc p h; exact Or.inl h
  | cons q rest ih =>
      intro acc p h
      rcases ih _ p h with hacc | ⟨q', hq', hpe⟩
      · rcases List.mem_cons.mp hacc with hpe | hacc'
        · exact Or.inr ⟨q, List.mem_cons_self _ _, hpe⟩
        · exact Or.inl hacc'
      · exact Or.inr ⟨q', List.mem_cons_of_mem _ hq', hpe⟩

theorem insertFold_congr {α : Type} (key key' : Nat × α → String) :
    ∀ (l : List (Nat × α)), (∀ q ∈ l, key q = key' q) →
      ∀ acc, l.foldl (fun m q => alInsert m (key q) q.1) acc =
        l.foldl (fun m q => alInsert m (key' q) q.1) acc := by
  intro l
  induction l with
  | nil => intro _ acc; rfl
  | cons q rest ih =>
      intro h acc
      simp only [List.foldl_cons]
      rw [h q (List.mem_cons_self _ _)]
      exact ih (fun q' hq' => h q' (List.mem_cons_of_mem _ hq')) _

theorem buildArtistMap_extend (ss E : List String) (arts : List ArtistEntry)
    (h : ∀ x ∈ arts, x.name_string_id < ss.length) :
    buildArtistMap (ss ++ E) arts = buildArtistMap ss arts := by
  unfold buildArtistMap
  exact insertFold_congr _ _ arts.enum
    (fun q hq => List.getD_append _ _ _ _
      (h q.2 (snd_mem_of_mem_enumFrom (by rwa [List.enum_eq_enumFrom] at hq)))) _

theorem buildArtistMap_append_one (ss : List String) (arts : List ArtistEntry)
    (x : ArtistEntry) :
    buildArtistMap ss (arts ++ [x]) =
      alInsert (buildArtistMap ss arts) (ss.getD x.name_string_id "")
        arts.length := by
  unfold buildArtistMap
  rw [List.enum_append, List.foldl_append]
  rfl

theorem buildAlbumMap_extend (ss E : List String) (albs : List AlbumEntry)
    (h : ∀ x ∈ albs, x.name_string_id < ss.length) :
    buildAlbumMap (ss ++ E) albs = buildAlbumMap ss albs := by
  unfold buildAlbumMap
  exact insertFold_congr _ _ albs.enum
    (fun q hq => by
      rw [List.getD_append _ _ _ _
        (h q.2 (snd_mem_of_mem_enumFrom (by rwa [List.enum_eq_enumFrom] at hq)))]) _

theorem buildAlbumMap_append_one (ss : List String) (albs : List AlbumEntry)
    (x : AlbumEntry) :
    buildAlbumMap ss (albs ++ [x]) =
      alInsert (buildAlbumMap ss albs)
        (albumKey x.artist_id (ss.getD x.name_string_id "")) albs.length := by
  unfold buildAlbumMap
  rw [List.enum_append, List.foldl_append]
  rfl

theorem buildSongSets_fst_mono :
    ∀ (l : List SongEntry) (n : Nat)
      (acc : List (Nat × Nat × Nat) × List ((Nat × Nat × Nat) × Nat))
      (k : Nat × Nat × Nat), k ∈ acc.1 →
      k ∈ ((List.enumFrom n l).foldl
        (fun acc p =>
          if p.2.flags &&& FLAG_DELETED = 0 then
            (acc.1 ++ [(p.2.title_string_id, p.2.artist_id, p.2.album_id)],
              alInsert acc.2 (p.2.title_string_id, p.2.artist_id, p.2.album_id) p.1)
          else acc) acc).1 := by
  intro l
  induction l with
  | nil => intro n acc k hk; simpa using hk
  | cons x rest ih =>
      intro n acc k hk
      rw [List.enumFrom_cons, List.foldl_cons]
      by_cases hx : x.flags &&& FLAG_DELETED = 0
      · simp only [hx, if_true]
        exact ih (n + 1) _ k (List.mem_append_left _ hk)
      · simp only [hx, if_false]
        exact ih (n + 1) _ k hk

theorem mem_buildSongSets_fst_aux (s : SongEntry)
    (hact : s.flags &&& FLAG_DELETED = 0) :
    ∀ (l : List SongEntry) (n : Nat)
      (acc : List (Nat × Nat × Nat) × List ((Nat × Nat × Nat) × Nat)) (i : Nat),
      (i, s) ∈ List.enumFrom n l →
      (s.title_string_id, s.artist_id, s.album_id) ∈
        ((List.enumFrom n l).foldl
          (fun acc p =>
            if p.2.flags &&& FLAG_DELETED = 0 then
              (acc.1 ++ [(p.2.title_string_id, p.2.artist_id, p.2.album_id)],
                alInsert acc.2 (p.2.title_string_id, p.2.artist_id, p.2.album_id) p.1)
            else acc) acc).1 := by
  intro l
  induction l with
  | nil => intro n acc i h; simp at h
  | cons x rest ih =>
      intro n acc i h
      rw [List.enumFrom_cons] at h
      rw [List.enumFrom_cons, List.foldl_cons]
      rcases List.mem_cons.mp h with heq | hmem'
      · have hx : x = s := (congrArg Prod.snd heq).symm
        subst hx
        simp only [hact, if_true]
        exact buildSongSets_fst_mono rest (n + 1) _ _
          (List.mem_append_right _ (List.mem_singleton.mpr rfl))
      · by_cases hx : x.flags &&& FLAG_DELETED = 0
        · simp only [hx, if_true]
          exact ih (n + 1) _ i hmem'
        · simp only [hx, if_false]
          exact ih (n + 1) _ i hmem'

theorem mem_buildSongSets_fst (songs : List SongEntry) (s : SongEntry)
    (hs : s ∈ songs) (hact : s.flags &&& FLAG_DELETED = 0) :
    (s.title_string_id, s.artist_id, s.album_id) ∈ (buildSongSets songs).1 := by
  unfold buildSongSets
  rw [List.enum_eq_enumFrom]
  obtain ⟨i, hi⟩ := List.get_of_mem hs
  have hget : songs.get? i.1 = some s := by rw [List.get?_eq_get i.2, hi]
  exact mem_buildSongSets_fst_aux s hact songs 0 ([], []) i.1
    (mem_enumFrom_zero_of_get? hget)

theorem of_mem_buildSongSets_fst :
    ∀ (l : List SongEntry) (n : Nat)
      (acc : List (Nat × Nat × Nat) × List ((Nat × Nat × Nat) × Nat))
      (k : Nat × Nat × Nat),
      k ∈ ((List.enumFrom n l).foldl
        (fun acc p =>
          if p.2.flags &&& FLAG_DELETED = 0 then
            (acc.1 ++ [(p.2.title_string_id, p.2.artist_id, p.2.album_id)],
              alInsert acc.2 (p.2.title_string_id, p.2.artist_id, p.2.album_id) p.1)
          else acc) acc).1 →
      k ∈ acc.1 ∨ ∃ s ∈ l, s.flags &&& FLAG_DELETED = 0 ∧
        k = (s.title_string_id, s.artist_id, s.album_id) := by
  intro l
  induction l with
  | nil => intro n acc k hk; exact Or.inl (by simpa using hk)
  | cons x rest ih =>
      intro n acc k hk
      rw [List.enumFrom_cons, List.foldl_cons] at hk
      by_cases hx : x.flags &&& FLAG_DELETED = 0
      · simp only [hx, if_true] at hk
        rcases ih (n + 1) _ k hk with hacc | ⟨s, hs, hsa, hse⟩
        · rcases List.mem_append.mp hacc with hl | hr
          · exact Or.inl hl
          · exact Or.inr ⟨x, List.mem_cons_self _ _, hx, List.mem_singleton.mp hr⟩
        · exact Or.inr ⟨s, List.mem_cons_of_mem _ hs, hsa, hse⟩
      · simp only [hx, if_false] at hk
        rcases ih (n + 1) _ k hk with hacc | ⟨s, hs, hsa, hse⟩
        · exact Or.inl hacc
        · exact Or.inr ⟨s, List.mem_cons_of_mem _ hs, hsa, hse⟩

theorem buildSongSets_append_one (songs : List SongEntry) (s : SongEntry)
    (hact : s.flags &&& FLAG_DELETED = 0) :
    (buildSongSets (songs ++ [s])).1 =
      (buildSongSets songs).1 ++
        [(s.title_string_id, s.artist_id, s.album_id)] := by
  unfold buildSongSets
  rw [List.enum_append, List.foldl_append]
  simp [hact]

/-! ## Support for C5 — characterising one loop iteration -/

theorem STCanon_getOrCreateArtist (st : StringTable) (artists : List ArtistEntry)
    (m : List (String × Nat)) (name : String) (h : STCanon st) :
    STCanon (getOrCreateArtist st artists m name).2.1 := by
  unfold getOrCreateArtist
  cases alFind name m with
  | some id => exact h
  | none => exact STCanon_add st name h

theorem STCanon_getOrCreateAlbum (st : StringTable) (albums : List AlbumEntry)
    (m : List (String × Nat)) (aid : Nat) (name : String) (year : Nat)
    (h : STCanon st) : STCanon (getOrCreateAlbum st albums m aid name year).2.1 := by
  unfold getOrCreateAlbum
  cases alFind (albumKey aid name) m with
  | some id => exact h
  | none => exact STCanon_add st name h

theorem add_strings_extends (t : StringTable) (s : String) :
    ∃ E, (t.add s).2.strings = t.strings ++ E := by
  rcases add_strings_cases t s with h | h
  · exact ⟨[], by rw [h, List.append_nil]⟩
  · exact ⟨[s], h⟩

theorem getOrCreateArtist_strings_extends (st : StringTable)
    (artists : List ArtistEntry) (m : List (String × Nat)) (name : String) :
    ∃ E, (getOrCreateArtist st artists m name).2.1.strings = st.strings ++ E := by
  unfold getOrCreateArtist
  cases alFind name m with
  | some id => exact ⟨[], by rw [List.append_nil]⟩
  | none => exact add_strings_extends st name

theorem getOrCreateAlbum_strings_extends (st : StringTable)
    (albums : List AlbumEntry) (m : List (String × Nat)) (aid : Nat)
    (name : String) (year : Nat) :
    ∃ E, (getOrCreateAlbum st albums m aid name year).2.1.strings =
      st.strings ++ E := by
  unfold getOrCreateAlbum
  cases alFind (albumKey aid name) m with
  | some id => exact ⟨[], by rw [List.append_nil]⟩
  | none => exact add_strings_extends st name

theorem effectiveCatalogue_WF (c : Catalogue) (h : c.WF) :
    (effectiveCatalogue c).WF := by
  unfold effectiveCatalogue
  split
  · exact ⟨by simp, by simp, by simp⟩
  · exact h

theorem effectiveCatalogue_of_ne (c : Catalogue) (h : c.songs.length ≠ 0) :
    effectiveCatalogue c = c := by
  unfold effectiveCatalogue
  rw [if_neg h]

/-- The duplicate check `save_to_library` runs for one candidate with
metadata `(t, a, al)` against the loaded catalogue `c0`: resolve (or
allocate) artist and album ids, peek the title, and test the
`(title_string_id, artist_id, album_id)` key against the active
songs. -/
def wouldBeDuplicate (c0 : Catalogue) (t a al : String) (yr : Nat) : Bool :=
  let ra := getOrCreateArtist (StringTable.fromVec c0.strings) c0.artists
    (buildArtistMap c0.strings c0.artists) a
  let rb := getOrCreateAlbum ra.2.1 c0.albums (buildAlbumMap c0.strings c0.albums)
    ra.1 al yr
  match rb.2.1.get_or_peek t with
  | some tid => decide ((tid, ra.1, rb.1) ∈ (buildSongSets c0.songs).1)
  | none => false

/-- One loop iteration on a valid non-duplicate candidate takes the
place-and-append path. -/
theorem saveStep_append (l : SaveLoop) (f : FileToSave) (t a al : String)
    (hsrc : f.source_exists = true) (ht : f.metadata.title = some t)
    (ha : f.metadata.artist = some a) (hal : f.metadata.album = some al)
    (hdup : (match (getOrCreateAlbum
        (getOrCreateArtist l.string_table l.artists l.artist_map a).2.1
        l.albums l.album_map
        (getOrCreateArtist l.string_table l.artists l.artist_map a).1 al
        (f.metadata.year.getD 0 % 65536)).2.1.get_or_peek t with
      | some tid => decide ((tid,
          (getOrCreateArtist l.string_table l.artists l.artist_map a).1,
          (getOrCreateAlbum
            (getOrCreateArtist l.string_table l.artists l.artist_map a).2.1
            l.albums l.album_map
            (getOrCreateArtist l.string_table l.artists l.artist_map a).1 al
            (f.metadata.year.getD 0 % 65536)).1) ∈ l.song_set)
      | none => false) = false) :
    saveStep l f = .ok (placeAndAppend l f t
      (getOrCreateAlbum
        (getOrCreateArtist l.string_table l.artists l.artist_map a).2.1
        l.albums l.album_map
        (getOrCreateArtist l.string_table l.artists l.artist_map a).1 al
        (f.metadata.year.getD 0 % 65536)).2.1
      (getOrCreateArtist l.string_table l.artists l.artist_map a).2.2.1
      (getOrCreateAlbum
        (getOrCreateArtist l.string_table l.artists l.artist_map a).2.1
        l.albums l.album_map
        (getOrCreateArtist l.string_table l.artists l.artist_map a).1 al
        (f.metadata.year.getD 0 % 65536)).2.2.1
      (getOrCreateArtist l.string_table l.artists l.artist_map a).2.2.2
      (getOrCreateAlbum
        (getOrCreateArtist l.string_table l.artists l.artist_map a).2.1
        l.albums l.album_map
        (getOrCreateArtist l.string_table l.artists l.artist_map a).1 al
        (f.metadata.year.getD 0 % 65536)).2.2.2
      (getOrCreateArtist l.string_table l.artists l.artist_map a).1
      (getOrCreateAlbum
        (getOrCreateArtist l.string_table l.artists l.artist_map a).2.1
        l.albums l.album_map
        (getOrCreateArtist l.string_table l.artists l.artist_map a).1 al
        (f.metadata.year.getD 0 % 65536)).1) := by
  simp only [saveStep, hsrc, ht, ha, hal]
  rw [hdup]
  simp

/-- One loop iteration on a valid candidate whose key is already in
`song_set` takes the duplicate branch: only the counters change. -/
theorem saveStep_dup (l : SaveLoop) (f : FileToSave) (t a al : String)
    (aid alid tid : Nat)
    (hsrc : f.source_exists = true) (ht : f.metadata.title = some t)
    (ha : f.metadata.artist = some a) (hal : f.metadata.album = some al)
    (hfa : alFind a l.artist_map = some aid)
    (hfal : alFind (albumKey aid al) l.album_map = some alid)
    (hpeek : alFind t l.string_table.lookup = some tid)
    (hset : (tid, aid, alid) ∈ l.song_set) :
    saveStep l f = .ok { l with
      duplicates_skipped := l.duplicates_skipped + 1,
      duplicate_song_ids := l.duplicate_song_ids ++
        (match alFind (tid, aid, alid) l.song_id_map with
          | some sid => [sid]
          | none => []) } := by
  simp only [saveStep, hsrc, ht, ha, hal, getOrCreateArtist, getOrCreateAlbum,
    StringTable.get_or_peek, hfa, hfal, hpeek, hset]
  simp

/-! ## Support for C5 — one ingest on a freshly loaded catalogue

The abbreviations below name the intermediate values of one
`save_to_library` loop iteration started on a freshly loaded catalogue
`c0`: the resolve-or-create artist result, the resolve-or-create album
result, the interned title id, the loop state after the append, and
the catalogue written back. -/

def ingestRA (c0 : Catalogue) (a : String) :
    Nat × StringTable × List ArtistEntry × List (String × Nat) :=
  getOrCreateArtist (StringTable.fromVec c0.strings) c0.artists
    (buildArtistMap c0.strings c0.artists) a

def ingestRB (c0 : Catalogue) (a al : String) (yr : Nat) :
    Nat × StringTable × List AlbumEntry × List (String × Nat) :=
  getOrCreateAlbum (ingestRA c0 a).2.1 c0.albums
    (buildAlbumMap c0.strings c0.albums) (ingestRA c0 a).1 al yr

def ingestTID (c0 : Catalogue) (t a al : String) (yr : Nat) : Nat :=
  ((ingestRB c0 a al yr).2.1.add t).1

def ingestL (c0 : Catalogue) (music : MusicDir) (f : FileToSave)
    (t a al : String) : SaveLoop :=
  placeAndAppend (initLoop c0 music) f t
    (ingestRB c0 a al (f.metadata.year.getD 0 % 65536)).2.1
    (ingestRA c0 a).2.2.1
    (ingestRB c0 a al (f.metadata.year.getD 0 % 65536)).2.2.1
    (ingestRA c0 a).2.2.2
    (ingestRB c0 a al (f.metadata.year.getD 0 % 65536)).2.2.2
    (ingestRA c0 a).1
    (ingestRB c0 a al (f.metadata.year.getD 0 % 65536)).1

def ingestCat (c0 : Catalogue) (music : MusicDir) (f : FileToSave)
    (t a al : String) : Catalogue :=
  ⟨(ingestL c0 music f t a al).string_table.strings,
    (ingestL c0 music f t a al).artists,
    (ingestL c0 music f t a al).albums,
    (ingestL c0 music f t a al).songs⟩

/-- The number of ACTIVE song rows of a catalogue carrying a given
`(title_string_id, artist_id, album_id)` key. -/
def activeKeyCount (c : Catalogue) (k : Nat × Nat × Nat) : Nat :=
  (c.songs.filter (fun s => decide (s.flags &&& FLAG_DELETED = 0) &&
    decide ((s.title_string_id, s.artist_id, s.album_id) = k))).length

theorem saveStep_initLoop_append (c0 : Catalogue) (music : MusicDir)
    (f : FileToSave) (t a al : String)
    (hsrc : f.source_exists = true) (ht : f.metadata.title = some t)
    (ha : f.metadata.artist = some a) (hal : f.metadata.album = some al)
    (hdup : wouldBeDuplicate c0 t a al (f.metadata.year.getD 0 % 65536) = false) :
    saveStep (initLoop c0 music) f = .ok (ingestL c0 music f t a al) :=
  saveStep_append (initLoop c0 music) f t a al hsrc ht ha hal hdup

theorem ingestRA_cases (c0 : Catalogue) (a : String) :
    (∃ i, alFind a (buildArtistMap c0.strings c0.artists) = some i ∧
      ingestRA c0 a = (i, StringTable.fromVec c0.strings, c0.artists,
        buildArtistMap c0.strings c0.artists)) ∨
    (alFind a (buildArtistMap c0.strings c0.artists) = none ∧
      ingestRA c0 a = (c0.artists.length,
        ((StringTable.fromVec c0.strings).add a).2,
        c0.artists ++ [⟨((StringTable.fromVec c0.strings).add a).1⟩],
        alInsert (buildArtistMap c0.strings c0.artists) a c0.artists.length)) := by
  unfold ingestRA getOrCreateArtist
  cases hf : alFind a (buildArtistMap c0.strings c0.artists) with
  | some i => exact Or.inl ⟨i, rfl, rfl⟩
  | none => exact Or.inr ⟨rfl, rfl⟩

theorem ingestRB_cases (c0 : Catalogue) (a al : String) (yr : Nat) :
    (∃ j, alFind (albumKey (ingestRA c0 a).1 al)
        (buildAlbumMap c0.strings c0.albums) = some j ∧
      ingestRB c0 a al yr = (j, (ingestRA c0 a).2.1, c0.albums,
        buildAlbumMap c0.strings c0.albums)) ∨
    (alFind (albumKey (ingestRA c0 a).1 al)
        (buildAlbumMap c0.strings c0.albums) = none ∧
      ingestRB c0 a al yr = (c0.albums.length,
        ((ingestRA c0 a).2.1.add al).2,
        c0.albums ++ [⟨((ingestRA c0 a).2.1.add al).1, (ingestRA c0 a).1, yr⟩],
        alInsert (buildAlbumMap c0.strings c0.albums)
          (albumKey (ingestRA c0 a).1 al) c0.albums.length)) := by
  unfold ingestRB getOrCreateAlbum
  cases hf : alFind (albumKey (ingestRA c0 a).1 al)
      (buildAlbumMap c0.strings c0.albums) with
  | some j => exact Or.inl ⟨j, rfl, rfl⟩
  | none => exact Or.inr ⟨rfl, rfl⟩

theorem ingestRA_STInv (c0 : Catalogue) (a : String) :
    STInv (ingestRA c0 a).2.1 := by
  unfold ingestRA
  exact STInv_getOrCreateArtist _ _ _ _ (STInv_fromVec _)

theorem ingestRB_STInv (c0 : Catalogue) (a al : String) (yr : Nat) :
    STInv (ingestRB c0 a al yr).2.1 := by
  unfold ingestRB
  exact STInv_getOrCreateAlbum _ _ _ _ _ _ (ingestRA_STInv c0 a)

theorem ingestRA_STCanon (c0 : Catalogue) (a : String) :
    STCanon (ingestRA c0 a).2.1 := by
  unfold ingestRA
  exact STCanon_getOrCreateArtist _ _ _ _ (STCanon_fromVec _)

theorem ingestRB_STCanon (c0 : Catalogue) (a al : String) (yr : Nat) :
    STCanon (ingestRB c0 a al yr).2.1 := by
  unfold ingestRB
  exact STCanon_getOrCreateAlbum _ _ _ _ _ _ (ingestRA_STCanon c0 a)

theorem ingestRA_st_extends (c0 : Catalogue) (a : String) :
    ∃ E, (ingestRA c0 a).2.1.strings = c0.strings ++ E := by
  unfold ingestRA
  exact getOrCreateArtist_strings_extends _ _ _ _

theorem ingestRB_st_extends (c0 : Catalogue) (a al : String) (yr : Nat) :
    ∃ E, (ingestRB c0 a al yr).2.1.strings = c0.strings ++ E := by
  obtain ⟨E1, h1⟩ := ingestRA_st_extends c0 a
  obtain ⟨E2, h2⟩ := getOrCreateAlbum_strings_extends (ingestRA c0 a).2.1 c0.albums
    (buildAlbumMap c0.strings c0.albums) (ingestRA c0 a).1 al yr
  refine ⟨E1 ++ E2, ?_⟩
  unfold ingestRB
  rw [h2, h1, List.append_assoc]

theorem ingestL_strings_mono_rb (c0 : Catalogue) (music : MusicDir)
    (f : FileToSave) (t a al : String) (i : Nat) (x : String)
    (h : (ingestRB c0 a al (f.metadata.year.getD 0 % 65536)).2.1.strings.get? i
      = some x) :
    (ingestL c0 music f t a al).string_table.strings.get? i = some x := by
  have hgen : ∀ y : String,
      (((ingestRB c0 a al (f.metadata.year.getD 0 % 65536)).2.1.add
        t).2.add y).2.strings.get? i = some x :=
    fun y => add_strings_mono _ y i x (add_strings_mono _ t i x h)
  simp only [ingestL, placeAndAppend]
  exact hgen _

theorem ingestL_strings_extends (c0 : Catalogue) (music : MusicDir)
    (f : FileToSave) (t a al : String) :
    ∃ E, (ingestL c0 music f t a al).string_table.strings = c0.strings ++ E := by
  obtain ⟨E0, h0⟩ := ingestRB_st_extends c0 a al (f.metadata.year.getD 0 % 65536)
  obtain ⟨E1, h1⟩ := add_strings_extends
    (ingestRB c0 a al (f.metadata.year.getD 0 % 65536)).2.1 t
  have hgen : ∀ y : String, ∃ E,
      (((ingestRB c0 a al (f.metadata.year.getD 0 % 65536)).2.1.add
        t).2.add y).2.strings = c0.strings ++ E := by
    intro y
    obtain ⟨E2, h2⟩ := add_strings_extends
      ((ingestRB c0 a al (f.metadata.year.getD 0 % 65536)).2.1.add t).2 y
    refine ⟨E0 ++ (E1 ++ E2), ?_⟩
    rw [h2, h1, h0, List.append_assoc, List.append_assoc]
  simp only [ingestL, placeAndAppend]
  exact hgen _

theorem ingestL_peek (c0 : Catalogue) (music : MusicDir) (f : FileToSave)
    (t a al : String) :
    alFind t (ingestL c0 music f t a al).string_table.lookup =
      some (ingestTID c0 t a al (f.metadata.year.getD 0 % 65536)) := by
  have hgen : ∀ y : String,
      alFind t (((ingestRB c0 a al (f.metadata.year.getD 0 % 65536)).2.1.add
        t).2.add y).2.lookup =
      some (ingestTID c0 t a al (f.metadata.year.getD 0 % 65536)) :=
    fun y => add_lookup_find_other _ y t _ (add_lookup_find_self _ t)
  simp only [ingestL, placeAndAppend]
  exact hgen _

theorem ingestL_STCanon_eq (c0 : Catalogue) (music : MusicDir) (f : FileToSave)
    (t a al : String) :
    (ingestL c0 music f t a al).string_table.lookup =
      (StringTable.fromVec
        (ingestL c0 music f t a al).string_table.strings).lookup := by
  have hgen : ∀ y : String,
      STCanon (((ingestRB c0 a al (f.metadata.year.getD 0 % 65536)).2.1.add
        t).2.add y).2 :=
    fun y => STCanon_add _ y (STCanon_add _ t (ingestRB_STCanon c0 a al _))
  have hL : STCanon (ingestL c0 music f t a al).string_table := by
    simp only [ingestL, placeAndAppend]
    exact hgen _
  exact hL

theorem ingestL_reload_peek (c0 : Catalogue) (music : MusicDir) (f : FileToSave)
    (t a al : String) :
    alFind t (StringTable.fromVec
        (ingestL c0 music f t a al).string_table.strings).lookup =
      some (ingestTID c0 t a al (f.metadata.year.getD 0 % 65536)) := by
  rw [← ingestL_STCanon_eq c0 music f t a al]
  exact ingestL_peek c0 music f t a al

theorem ingestL_songs (c0 : Catalogue) (music : MusicDir) (f : FileToSave)
    (t a al : String) :
    ∃ p, (ingestL c0 music f t a al).songs = c0.songs ++
      [SongEntry.mk_new (ingestTID c0 t a al (f.metadata.year.getD 0 % 65536))
        (ingestRA c0 a).1 (ingestRB c0 a al (f.metadata.year.getD 0 % 65536)).1 p
        (f.metadata.track_number.getD 0 % 65536)
        (f.metadata.duration_secs.getD 0 % 65536)] := by
  simp only [ingestL, placeAndAppend, initLoop, ingestTID]
  exact ⟨_, rfl⟩

theorem ingestL_artist_find (c0 : Catalogue) (music : MusicDir) (f : FileToSave)
    (t a al : String) :
    alFind a (ingestL c0 music f t a al).artist_map = some (ingestRA c0 a).1 := by
  show alFind a (ingestRA c0 a).2.2.2 = some (ingestRA c0 a).1
  rcases ingestRA_cases c0 a with ⟨i, hf, hra⟩ | ⟨hf, hra⟩
  · simp only [hra]
    exact hf
  · simp only [hra]
    simp [alInsert]

theorem ingestL_album_find (c0 : Catalogue) (music : MusicDir) (f : FileToSave)
    (t a al : String) :
    alFind (albumKey (ingestRA c0 a).1 al) (ingestL c0 music f t a al).album_map =
      some (ingestRB c0 a al (f.metadata.year.getD 0 % 65536)).1 := by
  show alFind (albumKey (ingestRA c0 a).1 al)
      (ingestRB c0 a al (f.metadata.year.getD 0 % 65536)).2.2.2 =
    some (ingestRB c0 a al (f.metadata.year.getD 0 % 65536)).1
  rcases ingestRB_cases c0 a al (f.metadata.year.getD 0 % 65536) with
    ⟨j, hf, hrb⟩ | ⟨hf, hrb⟩
  · simp only [hrb]
    exact hf
  · simp only [hrb]
    simp [alInsert]

theorem ingestL_song_set (c0 : Catalogue) (music : MusicDir) (f : FileToSave)
    (t a al : String) :
    (ingestTID c0 t a al (f.metadata.year.getD 0 % 65536), (ingestRA c0 a).1,
      (ingestRB c0 a al (f.metadata.year.getD 0 % 65536)).1) ∈
      (ingestL c0 music f t a al).song_set := by
  simp only [ingestL, placeAndAppend, ingestTID]
  exact List.mem_append_right _ (List.mem_singleton.mpr rfl)

theorem getD_of_get? {α : Type} {l : List α} {i : Nat} {x : α} (d : α)
    (h : l.get? i = some x) : l.getD i d = x := by
  have h' : l[i]? = some x := by rw [← List.get?_eq_getElem?]; exact h
  simp [List.getD, h']

theorem get?_of_mem_enum {α : Type} {l : List α} {j : Nat} {x : α}
    (h : (j, x) ∈ l.enum) : l.get? j = some x := by
  rw [List.enum_eq_enumFrom] at h
  obtain ⟨-, hlt, hval⟩ := List.mem_enumFrom h
  rw [List.get?_eq_getElem?, List.getElem?_eq_getElem (by omega)]
  simp at hval
  rw [hval]

theorem buildArtistMap_mem_resolve (ss : List String) (arts : List ArtistEntry)
    (a : String) (i : Nat)
    (h : alFind a (buildArtistMap ss arts) = some i) :
    ∃ ae, arts.get? i = some ae ∧ ss.getD ae.name_string_id "" = a := by
  have hmem := alFind_mem h
  unfold buildArtistMap at hmem
  rcases insertFold_mem (fun q => ss.getD q.2.name_string_id "") arts.enum [] _
      hmem with hnil | ⟨q, hq, hpe⟩
  · simp at hnil
  · refine ⟨q.2, ?_, (congrArg Prod.fst hpe).symm⟩
    have hqi : i = q.1 := congrArg Prod.snd hpe
    rw [hqi]
    exact get?_of_mem_enum hq

theorem buildAlbumMap_mem_resolve (ss : List String) (albs : List AlbumEntry)
    (k : String) (j : Nat)
    (h : alFind k (buildAlbumMap ss albs) = some j) :
    ∃ be, albs.get? j = some be ∧
      albumKey be.artist_id (ss.getD be.name_string_id "") = k := by
  have hmem := alFind_mem h
  unfold buildAlbumMap at hmem
  rcases insertFold_mem
      (fun q => albumKey q.2.artist_id (ss.getD q.2.name_string_id ""))
      albs.enum [] _ hmem with hnil | ⟨q, hq, hpe⟩
  · simp at hnil
  · refine ⟨q.2, ?_, (congrArg Prod.fst hpe).symm⟩
    have hqj : j = q.1 := congrArg Prod.snd hpe
    rw [hqj]
    exact get?_of_mem_enum hq

theorem ingestL_reload_artist_find (c0 : Catalogue) (music : MusicDir)
    (f : FileToSave) (t a al : String) (hwf0 : c0.WF) :
    alFind a (buildArtistMap (ingestL c0 music f t a al).string_table.strings
      (ingestL c0 music f t a al).artists) = some (ingestRA c0 a).1 := by
  obtain ⟨E, hE⟩ := ingestL_strings_extends c0 music f t a al
  have hart : (ingestL c0 music f t a al).artists = (ingestRA c0 a).2.2.1 := rfl
  rw [hE, hart]
  rcases ingestRA_cases c0 a with ⟨i, hf, hra⟩ | ⟨hf, hra⟩
  · simp only [hra]
    rw [buildArtistMap_extend c0.strings E c0.artists hwf0.2.1]
    exact hf
  · simp only [hra]
    rw [buildArtistMap_append_one]
    have hres : (c0.strings ++ E).getD
        ((StringTable.fromVec c0.strings).add a).1 "" = a := by
      have hbase : ((StringTable.fromVec c0.strings).add a).2.strings.get?
          ((StringTable.fromVec c0.strings).add a).1 = some a :=
        add_resolves _ a (STInv_fromVec _)
      have hrb : (ingestRB c0 a al
            (f.metadata.year.getD 0 % 65536)).2.1.strings.get?
          ((StringTable.fromVec c0.strings).add a).1 = some a := by
        unfold ingestRB
        refine getOrCreateAlbum_strings_mono _ _ _ _ _ _ _ _ ?_
        rw [show (ingestRA c0 a).2.1 = ((StringTable.fromVec c0.strings).add a).2
          from by rw [hra]]
        exact hbase
      have hL := ingestL_strings_mono_rb c0 music f t a al _ _ hrb
      rw [hE] at hL
      exact getD_of_get? _ hL
    rw [show (c0.strings ++ E).getD
        (ArtistEntry.mk ((StringTable.fromVec c0.strings).add a).1).name_string_id ""
        = a from hres]
    simp [alInsert]

theorem ingestL_reload_album_find (c0 : Catalogue) (music : MusicDir)
    (f : FileToSave) (t a al : String) (hwf0 : c0.WF) :
    alFind (albumKey (ingestRA c0 a).1 al)
      (buildAlbumMap (ingestL c0 music f t a al).string_table.strings
        (ingestL c0 music f t a al).albums) =
      some (ingestRB c0 a al (f.metadata.year.getD 0 % 65536)).1 := by
  obtain ⟨E, hE⟩ := ingestL_strings_extends c0 music f t a al
  have halb : (ingestL c0 music f t a al).albums =
      (ingestRB c0 a al (f.metadata.year.getD 0 % 65536)).2.2.1 := rfl
  rw [hE, halb]
  rcases ingestRB_cases c0 a al (f.metadata.year.getD 0 % 65536) with
    ⟨j, hf, hrb⟩ | ⟨hf, hrb⟩
  · simp only [hrb]
    rw [buildAlbumMap_extend c0.strings E c0.albums
      (fun x hx => (hwf0.2.2 x hx).1)]
    exact hf
  · simp only [hrb]
    rw [buildAlbumMap_append_one]
    have hres : (c0.strings ++ E).getD ((ingestRA c0 a).2.1.add al).1 "" = al := by
      have hbase : ((ingestRA c0 a).2.1.add al).2.strings.get?
          ((ingestRA c0 a).2.1.add al).1 = some al :=
        add_resolves _ al (ingestRA_STInv c0 a)
      have hrb2 : (ingestRB c0 a al
            (f.metadata.year.getD 0 % 65536)).2.1.strings.get?
          ((ingestRA c0 a).2.1.add al).1 = some al := by
        rw [show (ingestRB c0 a al (f.metadata.year.getD 0 % 65536)).2.1
            = ((ingestRA c0 a).2.1.add al).2 from by rw [hrb]]
        exact hbase
      have hL := ingestL_strings_mono_rb c0 music f t a al _ _ hrb2
      rw [hE] at hL
      exact getD_of_get? _ hL
    rw [show albumKey
        (AlbumEntry.mk ((ingestRA c0 a).2.1.add al).1 (ingestRA c0 a).1
          (f.metadata.year.getD 0 % 65536)).artist_id
        ((c0.strings ++ E).getD
          (AlbumEntry.mk ((ingestRA c0 a).2.1.add al).1 (ingestRA c0 a).1
            (f.metadata.year.getD 0 % 65536)).name_string_id "") =
        albumKey (ingestRA c0 a).1 al from by
      show albumKey (ingestRA c0 a).1
          ((c0.strings ++ E).getD ((ingestRA c0 a).2.1.add al).1 "") =
        albumKey (ingestRA c0 a).1 al
      rw [hres]]
    simp [alInsert]

theorem ingestL_reload_set (c0 : Catalogue) (music : MusicDir) (f : FileToSave)
    (t a al : String) :
    (ingestTID c0 t a al (f.metadata.year.getD 0 % 65536), (ingestRA c0 a).1,
      (ingestRB c0 a al (f.metadata.year.getD 0 % 65536)).1) ∈
      (buildSongSets (ingestL c0 music f t a al).songs).1 := by
  obtain ⟨p, hsongs⟩ := ingestL_songs c0 music f t a al
  rw [hsongs, buildSongSets_append_one]
  · exact List.mem_append_right _ (by simp [SongEntry.mk_new])
  · simp [SongEntry.mk_new, FLAG_ACTIVE, FLAG_DELETED]

theorem ingest_no_prior_key (c0 : Catalogue) (t a al : String) (yr : Nat)
    (hwf0 : c0.WF)
    (hdup : wouldBeDuplicate c0 t a al yr = false) :
    ∀ s ∈ c0.songs, s.flags &&& FLAG_DELETED = 0 →
      (s.title_string_id, s.artist_id, s.album_id) ≠
        (ingestTID c0 t a al yr, (ingestRA c0 a).1, (ingestRB c0 a al yr).1) := by
  intro s hs hact hk
  have hdup' : (match alFind t (ingestRB c0 a al yr).2.1.lookup with
      | some tid => decide ((tid, (ingestRA c0 a).1, (ingestRB c0 a al yr).1) ∈
          (buildSongSets c0.songs).1)
      | none => false) = false := hdup
  cases hp : alFind t (ingestRB c0 a al yr).2.1.lookup with
  | some tid =>
      rw [hp] at hdup'
      simp only [decide_eq_false_iff_not] at hdup'
      have htid : ingestTID c0 t a al yr = tid := by
        unfold ingestTID StringTable.add
        rw [hp]
      have hmem := mem_buildSongSets_fst c0.songs s hs hact
      rw [hk, htid] at hmem
      exact hdup' hmem
  | none =>
      have htid : ingestTID c0 t a al yr =
          (ingestRB c0 a al yr).2.1.strings.length := by
        unfold ingestTID StringTable.add
        rw [hp]
      obtain ⟨E, hE⟩ := ingestRB_st_extends c0 a al yr
      have hlen : c0.strings.length ≤ (ingestRB c0 a al yr).2.1.strings.length := by
        rw [hE]; simp
      have hslt : s.title_string_id < c0.strings.length := (hwf0.1 s hs).1
      have ht1 : s.title_string_id = ingestTID c0 t a al yr := congrArg Prod.fst hk
      omega

theorem filter_eq_nil_of {α : Type} (p : α → Bool) :
    ∀ l : List α, (∀ x ∈ l, p x = false) → l.filter p = [] := by
  intro l
  induction l with
  | nil => intro _; rfl
  | cons x rest ih =>
      intro h
      rw [List.filter_cons, h x (List.mem_cons_self _ _)]
      simp only [Bool.false_eq_true, if_false]
      exact ih (fun y hy => h y (List.mem_cons_of_mem _ hy))

theorem ingestL_title_resolves (c0 : Catalogue) (music : MusicDir)
    (f : FileToSave) (t a al : String) :
    (ingestL c0 music f t a al).string_table.strings.get?
      (ingestTID c0 t a al (f.metadata.year.getD 0 % 65536)) = some t := by
  have hbase : ((ingestRB c0 a al
        (f.metadata.year.getD 0 % 65536)).2.1.add t).2.strings.get?
      (ingestTID c0 t a al (f.metadata.year.getD 0 % 65536)) = some t :=
    add_resolves _ t (ingestRB_STInv c0 a al _)
  have hgen : ∀ y : String,
      ((((ingestRB c0 a al (f.metadata.year.getD 0 % 65536)).2.1.add
        t).2.add y).2.strings.get?
        (ingestTID c0 t a al (f.metadata.year.getD 0 % 65536))) = some t :=
    fun y => add_strings_mono _ y _ t hbase
  simp only [ingestL, placeAndAppend]
  exact hgen _

theorem ingestL_artist_resolves (c0 : Catalogue) (music : MusicDir)
    (f : FileToSave) (t a al : String) (hwf0 : c0.WF) :
    ∃ ae, (ingestL c0 music f t a al).artists.get? (ingestRA c0 a).1 = some ae ∧
      (ingestL c0 music f t a al).string_table.strings.getD
        ae.name_string_id "" = a := by
  obtain ⟨E, hE⟩ := ingestL_strings_extends c0 music f t a al
  have hart : (ingestL c0 music f t a al).artists = (ingestRA c0 a).2.2.1 := rfl
  rcases ingestRA_cases c0 a with ⟨i, hf, hra⟩ | ⟨hf, hra⟩
  · obtain ⟨ae, hget, hname⟩ := buildArtistMap_mem_resolve c0.strings c0.artists a i hf
    refine ⟨ae, ?_, ?_⟩
    · rw [hart]
      simp only [hra]
      exact hget
    · rw [hE, List.getD_append _ _ _ _ (hwf0.2.1 ae (List.get?_mem hget))]
      exact hname
  · refine ⟨⟨((StringTable.fromVec c0.strings).add a).1⟩, ?_, ?_⟩
    · rw [hart]
      simp only [hra]
      exact List.get?_concat_length _ _
    · have hbase : ((StringTable.fromVec c0.strings).add a).2.strings.get?
          ((StringTable.fromVec c0.strings).add a).1 = some a :=
        add_resolves _ a (STInv_fromVec _)
      have hrb : (ingestRB c0 a al
            (f.metadata.year.getD 0 % 65536)).2.1.strings.get?
          ((StringTable.fromVec c0.strings).add a).1 = some a := by
        unfold ingestRB
        refine getOrCreateAlbum_strings_mono _ _ _ _ _ _ _ _ ?_
        rw [show (ingestRA c0 a).2.1 = ((StringTable.fromVec c0.strings).add a).2
          from by rw [hra]]
        exact hbase
      exact getD_of_get? _ (ingestL_strings_mono_rb c0 music f t a al _ _ hrb)

theorem ingestL_album_resolves (c0 : Catalogue) (music : MusicDir)
    (f : FileToSave) (t a al : String) (hwf0 : c0.WF) :
    ∃ be, (ingestL c0 music f t a al).albums.get?
        (ingestRB c0 a al (f.metadata.year.getD 0 % 65536)).1 = some be ∧
      albumKey be.artist_id
        ((ingestL c0 music f t a al).string_table.strings.getD
          be.name_string_id "") = albumKey (ingestRA c0 a).1 al := by
  obtain ⟨E, hE⟩ := ingestL_strings_extends c0 music f t a al
  have halb : (ingestL c0 music f t a al).albums =
      (ingestRB c0 a al (f.metadata.year.getD 0 % 65536)).2.2.1 := rfl
  rcases ingestRB_cases c0 a al (f.metadata.year.getD 0 % 65536) with
    ⟨j, hf, hrb⟩ | ⟨hf, hrb⟩
  · obtain ⟨be, hget, hname⟩ := buildAlbumMap_mem_resolve c0.strings c0.albums _ j hf
    refine ⟨be, ?_, ?_⟩
    · rw [halb]
      simp only [hrb]
      exact hget
    · rw [hE, List.getD_append _ _ _ _ ((hwf0.2.2 be (List.get?_mem hget)).1)]
      exact hname
  · refine ⟨⟨((ingestRA c0 a).2.1.add al).1, (ingestRA c0 a).1,
      f.metadata.year.getD 0 % 65536⟩, ?_, ?_⟩
    · rw [halb]
      simp only [hrb]
      exact List.get?_concat_length _ _
    · have hbase : ((ingestRA c0 a).2.1.add al).2.strings.get?
          ((ingestRA c0 a).2.1.add al).1 = some al :=
        add_resolves _ al (ingestRA_STInv c0 a)
      have hrb2 : (ingestRB c0 a al
            (f.metadata.year.getD 0 % 65536)).2.1.strings.get?
          ((ingestRA c0 a).2.1.add al).1 = some al := by
        rw [show (ingestRB c0 a al (f.metadata.year.getD 0 % 65536)).2.1
            = ((ingestRA c0 a).2.1.add al).2 from by rw [hrb]]
        exact hbase
      have hgd := getD_of_get? "" (ingestL_strings_mono_rb c0 music f t a al _ _ hrb2)
      show albumKey (ingestRA c0 a).1
          ((ingestL c0 music f t a al).string_table.strings.getD
            ((ingestRA c0 a).2.1.add al).1 "") = albumKey (ingestRA c0 a).1 al
      rw [hgd]

/-- Claim C5: ingesting the same `(title, artist, album)` key twice —
whether across two separate `save_to_library` calls or twice within one
call — leaves exactly one ACTIVE song row with that key in the
catalogue and copies exactly one blob; the second attempt increments
`duplicates_skipped` instead of `songs_added`.  Formally: for a
well-formed catalogue whose loaded state does not already hold the key
of a valid candidate file `f`, (i) one call on `[f]` copies one blob
and adds one song, (ii) a second call on `[f]` against the written-back
catalogue copies nothing, adds nothing, leaves catalogue and music tree
unchanged and reports one duplicate, (iii) one call on `[f, f]` copies
one blob, adds one song and reports one duplicate, and in the resulting
catalogue exactly one ACTIVE row carries the key, whose ids resolve to
the candidate's title, artist and artist-scoped album name. -/
theorem ingest_dedup_same_key (c : Catalogue) (music : MusicDir)
    (f : FileToSave) (t a al : String)
    (hsrc : f.source_exists = true) (ht : f.metadata.title = some t)
    (ha : f.metadata.artist = some a) (hal : f.metadata.album = some al)
    (hwf : c.WF)
    (hdup : wouldBeDuplicate (effectiveCatalogue c) t a al
      (f.metadata.year.getD 0 % 65536) = false) :
    ∃ c1 m1 r1 r2 r3 k,
      save_to_library c music [f] = .ok (c1, m1, 1, r1) ∧
      save_to_library c1 m1 [f] = .ok (c1, m1, 0, r2) ∧
      save_to_library c music [f, f] = .ok (c1, m1, 1, r3) ∧
      r1.songs_added = 1 ∧ r1.duplicates_skipped = 0 ∧
      r2.songs_added = 0 ∧ r2.duplicates_skipped = 1 ∧
      r3.songs_added = 1 ∧ r3.duplicates_skipped = 1 ∧
      activeKeyCount c1 k = 1 ∧
      c1.strings.get? k.1 = some t ∧
      (∃ ae, c1.artists.get? k.2.1 = some ae ∧
        c1.strings.getD ae.name_string_id "" = a) ∧
      (∃ be, c1.albums.get? k.2.2 = some be ∧
        albumKey be.artist_id (c1.strings.getD be.name_string_id "") =
          albumKey k.2.1 al) := by
  have hwf0 : (effectiveCatalogue c).WF := effectiveCatalogue_WF c hwf
  have hstep1 : saveStep (initLoop (effectiveCatalogue c) music) f =
      Except.ok (ingestL (effectiveCatalogue c) music f t a al) :=
    saveStep_initLoop_append (effectiveCatalogue c) music f t a al
      hsrc ht ha hal hdup
  obtain ⟨p, hsongs⟩ := ingestL_songs (effectiveCatalogue c) music f t a al
  have hr1a : (ingestL (effectiveCatalogue c) music f t a al).songs.length -
      (effectiveCatalogue c).songs.length = 1 := by
    rw [hsongs]
    simp
  -- first call
  have h1 : save_to_library c music [f] = Except.ok
      (ingestCat (effectiveCatalogue c) music f t a al,
        (ingestL (effectiveCatalogue c) music f t a al).music, 1,
        ⟨1,
          (ingestL (effectiveCatalogue c) music f t a al).artists.length -
            (effectiveCatalogue c).artists.length,
          (ingestL (effectiveCatalogue c) music f t a al).albums.length -
            (effectiveCatalogue c).albums.length,
          (ingestL (effectiveCatalogue c) music f t a al).songs.length -
            (effectiveCatalogue c).songs.length,
          0, [(effectiveCatalogue c).songs.length], []⟩) := by
    unfold save_to_library
    simp only []
    have hfold1 : List.foldlM saveStep (initLoop (effectiveCatalogue c) music)
        [f] = Except.ok (ingestL (effectiveCatalogue c) music f t a al) := by
      show saveStep (initLoop (effectiveCatalogue c) music) f >>=
        (fun l => List.foldlM saveStep l []) = _
      rw [hstep1]
      rfl
    rw [hfold1]
    rfl
  -- the within-batch duplicate step
  have hstep3 := saveStep_dup (ingestL (effectiveCatalogue c) music f t a al)
    f t a al _ _ _ hsrc ht ha hal
    (ingestL_artist_find (effectiveCatalogue c) music f t a al)
    (ingestL_album_find (effectiveCatalogue c) music f t a al)
    (ingestL_peek (effectiveCatalogue c) music f t a al)
    (ingestL_song_set (effectiveCatalogue c) music f t a al)
  have h3 : save_to_library c music [f, f] = Except.ok
      (ingestCat (effectiveCatalogue c) music f t a al,
        (ingestL (effectiveCatalogue c) music f t a al).music, 1,
        ⟨1,
          (ingestL (effectiveCatalogue c) music f t a al).artists.length -
            (effectiveCatalogue c).artists.length,
          (ingestL (effectiveCatalogue c) music f t a al).albums.length -
            (effectiveCatalogue c).albums.length,
          (ingestL (effectiveCatalogue c) music f t a al).songs.length -
            (effectiveCatalogue c).songs.length,
          1, [(effectiveCatalogue c).songs.length],
          match alFind (ingestTID (effectiveCatalogue c) t a al
              (f.metadata.year.getD 0 % 65536),
            (ingestRA (effectiveCatalogue c) a).1,
            (ingestRB (effectiveCatalogue c) a al
              (f.metadata.year.getD 0 % 65536)).1)
            (ingestL (effectiveCatalogue c) music f t a al).song_id_map with
          | some sid => [sid]
          | none => []⟩) := by
    unfold save_to_library
    simp only []
    have hfold3 : List.foldlM saveStep (initLoop (effectiveCatalogue c) music)
        [f, f] =
        saveStep (ingestL (effectiveCatalogue c) music f t a al) f := by
      show saveStep (initLoop (effectiveCatalogue c) music) f >>=
        (fun l => List.foldlM saveStep l [f]) = _
      rw [hstep1]
      show saveStep (ingestL (effectiveCatalogue c) music f t a al) f >>=
        (fun l => List.foldlM saveStep l []) = _
      cases hs : saveStep (ingestL (effectiveCatalogue c) music f t a al) f with
      | error e => rfl
      | ok l => rfl
    rw [hfold3, hstep3]
    rfl
  -- second call on the written-back catalogue
  have hne1 : (ingestCat (effectiveCatalogue c) music f t a al).songs.length ≠ 0 := by
    show (ingestL (effectiveCatalogue c) music f t a al).songs.length ≠ 0
    rw [hsongs]
    simp
  have HA2 : alFind a (initLoop (ingestCat (effectiveCatalogue c) music f t a al)
        (ingestL (effectiveCatalogue c) music f t a al).music).artist_map =
      some (ingestRA (effectiveCatalogue c) a).1 :=
    ingestL_reload_artist_find (effectiveCatalogue c) music f t a al hwf0
  have HB2 : alFind (albumKey (ingestRA (effectiveCatalogue c) a).1 al)
      (initLoop (ingestCat (effectiveCatalogue c) music f t a al)
        (ingestL (effectiveCatalogue c) music f t a al).music).album_map =
      some (ingestRB (effectiveCatalogue c) a al
        (f.metadata.year.getD 0 % 65536)).1 :=
    ingestL_reload_album_find (effectiveCatalogue c) music f t a al hwf0
  have HP2 : alFind t (initLoop (ingestCat (effectiveCatalogue c) music f t a al)
        (ingestL (effectiveCatalogue c) music f t a al).music).string_table.lookup =
      some (ingestTID (effectiveCatalogue c) t a al
        (f.metadata.year.getD 0 % 65536)) :=
    ingestL_reload_peek (effectiveCatalogue c) music f t a al
  have HS2 : (ingestTID (effectiveCatalogue c) t a al
        (f.metadata.year.getD 0 % 65536),
      (ingestRA (effectiveCatalogue c) a).1,
      (ingestRB (effectiveCatalogue c) a al
        (f.metadata.year.getD 0 % 65536)).1) ∈
      (initLoop (ingestCat (effectiveCatalogue c) music f t a al)
        (ingestL (effectiveCatalogue c) music f t a al).music).song_set :=
    ingestL_reload_set (effectiveCatalogue c) music f t a al
  have hstep2 := saveStep_dup
    (initLoop (ingestCat (effectiveCatalogue c) music f t a al)
      (ingestL (effectiveCatalogue c) music f t a al).music)
    f t a al _ _ _ hsrc ht ha hal HA2 HB2 HP2 HS2
  have h2 : save_to_library
      (ingestCat (effectiveCatalogue c) music f t a al)
      (ingestL (effectiveCatalogue c) music f t a al).music [f] = Except.ok
      (ingestCat (effectiveCatalogue c) music f t a al,
        (ingestL (effectiveCatalogue c) music f t a al).music, 0,
        ⟨0,
          (ingestCat (effectiveCatalogue c) music f t a al).artists.length -
            (ingestCat (effectiveCatalogue c) music f t a al).artists.length,
          (ingestCat (effectiveCatalogue c) music f t a al).albums.length -
            (ingestCat (effectiveCatalogue c) music f t a al).albums.length,
          (ingestCat (effectiveCatalogue c) music f t a al).songs.length -
            (ingestCat (effectiveCatalogue c) music f t a al).songs.length,
          1, [],
          match alFind (ingestTID (effectiveCatalogue c) t a al
              (f.metadata.year.getD 0 % 65536),
            (ingestRA (effectiveCatalogue c) a).1,
            (ingestRB (effectiveCatalogue c) a al
              (f.metadata.year.getD 0 % 65536)).1)
            (buildSongSets (ingestCat (effectiveCatalogue c) music
              f t a al).songs).2 with
          | some sid => [sid]
          | none => []⟩) := by
    unfold save_to_library
    simp only []
    rw [effectiveCatalogue_of_ne _ hne1]
    have hfold2 : List.foldlM saveStep
        (initLoop (ingestCat (effectiveCatalogue c) music f t a al)
          (ingestL (effectiveCatalogue c) music f t a al).music) [f] =
        saveStep (initLoop (ingestCat (effectiveCatalogue c) music f t a al)
          (ingestL (effectiveCatalogue c) music f t a al).music) f := by
      show saveStep (initLoop (ingestCat (effectiveCatalogue c) music f t a al)
          (ingestL (effectiveCatalogue c) music f t a al).music) f >>=
        (fun l => List.foldlM saveStep l []) = _
      cases hs : saveStep
          (initLoop (ingestCat (effectiveCatalogue c) music f t a al)
            (ingestL (effectiveCatalogue c) music f t a al).music) f with
      | error e => rfl
      | ok l => rfl
    rw [hfold2, hstep2]
    rfl
  -- exactly one ACTIVE row with the key
  have hkey1 : activeKeyCount (ingestCat (effectiveCatalogue c) music f t a al)
      (ingestTID (effectiveCatalogue c) t a al (f.metadata.year.getD 0 % 65536),
        (ingestRA (effectiveCatalogue c) a).1,
        (ingestRB (effectiveCatalogue c) a al
          (f.metadata.year.getD 0 % 65536)).1) = 1 := by
    unfold activeKeyCount
    show ((ingestL (effectiveCatalogue c) music f t a al).songs.filter _).length = 1
    rw [hsongs, List.filter_append]
    have hno : ∀ s ∈ (effectiveCatalogue c).songs,
        (fun s => decide (s.flags &&& FLAG_DELETED = 0) &&
          decide ((s.title_string_id, s.artist_id, s.album_id) =
            (ingestTID (effectiveCatalogue c) t a al
                (f.metadata.year.getD 0 % 65536),
              (ingestRA (effectiveCatalogue c) a).1,
              (ingestRB (effectiveCatalogue c) a al
                (f.metadata.year.getD 0 % 65536)).1))) s = false := by
      intro s hs
      by_cases hact : s.flags &&& FLAG_DELETED = 0
      · have hne := ingest_no_prior_key (effectiveCatalogue c) t a al
          (f.metadata.year.getD 0 % 65536) hwf0 hdup s hs hact
        simp [hact, hne]
      · simp [hact]
    rw [filter_eq_nil_of _ _ hno]
    simp [SongEntry.mk_new, FLAG_ACTIVE, FLAG_DELETED]
  -- resolution of the key
  obtain ⟨ae, hae1, hae2⟩ :=
    ingestL_artist_resolves (effectiveCatalogue c) music f t a al hwf0
  obtain ⟨be, hbe1, hbe2⟩ :=
    ingestL_album_resolves (effectiveCatalogue c) music f t a al hwf0
  have htit := ingestL_title_resolves (effectiveCatalogue c) music f t a al
  exact ⟨ingestCat (effectiveCatalogue c) music f t a al,
    (ingestL (effectiveCatalogue c) music f t a al).music, _, _, _,
    (ingestTID (effectiveCatalogue c) t a al (f.metadata.year.getD 0 % 65536),
      (ingestRA (effectiveCatalogue c) a).1,
      (ingestRB (effectiveCatalogue c) a al
        (f.metadata.year.getD 0 % 65536)).1),
    h1, h2, h3, hr1a, rfl, Nat.sub_self _, rfl, hr1a, rfl, hkey1, htit,
    ⟨ae, hae1, hae2⟩, ⟨be, hbe1, hbe2⟩⟩

/-- Witness for C5: on the empty library with one empty bucket,
ingesting the same file twice in one call copies one blob, adds one
song and skips one duplicate. -/
theorem ingest_dedup_same_key_witness :
    (save_to_library ⟨[], [], [], []⟩ [(0, [])]
      [⟨true, "mp3", ⟨some "T", some "A", some "AL", some 2020, some 1, some 100⟩⟩,
        ⟨true, "mp3",
          ⟨some "T", some "A", some "AL", some 2020, some 1, some 100⟩⟩]).toOption.map
      (fun r => (r.2.2.1, r.2.2.2.songs_added, r.2.2.2.duplicates_skipped)) =
      some (1, 1, 1) := by
  obtain ⟨c1, m1, r1, r2, r3, k, h1, h2, h3, hr1a, hr1d, hr2a, hr2d, hr3a, hr3d,
      hcnt, htit, hart, halb⟩ :=
    ingest_dedup_same_key ⟨[], [], [], []⟩ [(0, [])]
      ⟨true, "mp3", ⟨some "T", some "A", some "AL", some 2020, some 1, some 100⟩⟩
      "T" "A" "AL" rfl rfl rfl rfl (by decide) (by decide)
  rw [h3]
  simp [Except.toOption, hr3a, hr3d]

/-! ## C10 — blob placement can collide with an existing blob

`get_current_bucket` counts the files *physically present* in the
highest-numbered bucket and `save_to_library` names the next file
`count + 1`.  After a soft delete has removed a blob from a non-final
position of the bucket, the count no longer equals the highest used
index, so the computed destination coincides with an existing blob of
an active song, and `fs::copy` silently overwrites it. -/

/-- C10 failing input: bucket `00` held `001.mp3`, `002.mp3`,
`003.mp3`; the song owning `00/001.mp3` was soft-deleted (its blob
removed from disk).  The next ingest computes destination
`00/003.mp3` — the path of a blob still on disk.  Moreover, running
`save_to_library` on a catalogue whose active song `1` owns
`00/003.mp3` appends a new active row sharing the *same* path string
(id 5) while the music tree gains no file: the copy overwrote the
other song's audio. -/
theorem blob_placement_collision_on_gapped_bucket :
    computeDestRelPath
        (removeFileFromBucket [(0, ["001.mp3", "002.mp3", "003.mp3"])] 0 "001.mp3")
        "mp3" = "00/003.mp3" ∧
    "00/003.mp3" ∈ diskPaths
        (removeFileFromBucket [(0, ["001.mp3", "002.mp3", "003.mp3"])] 0 "001.mp3") ∧
    save_to_library
        ⟨["T2", "A", "AL", "00/002.mp3", "T3", "00/003.mp3"],
          [⟨1⟩], [⟨2, 0, 2020⟩],
          [⟨0, 0, 0, 3, 0, 0, 0⟩, ⟨4, 0, 0, 5, 0, 0, 0⟩]⟩
        [(0, ["002.mp3", "003.mp3"])]
        [⟨true, "mp3", ⟨some "TN", some "A", some "AL", none, none, none⟩⟩] =
      .ok (⟨["T2", "A", "AL", "00/002.mp3", "T3", "00/003.mp3", "TN"],
          [⟨1⟩], [⟨2, 0, 2020⟩],
          [⟨0, 0, 0, 3, 0, 0, 0⟩, ⟨4, 0, 0, 5, 0, 0, 0⟩, ⟨6, 0, 0, 5, 0, 0, 0⟩]⟩,
        [(0, ["002.mp3", "003.mp3"])], 1,
        ⟨1, 0, 0, 1, 0, [2], []⟩) := by
  refine ⟨by rfl, by decide, by rfl⟩

end JP3
